import Mathlib

/-! The Kilobot controller of `src/lulu_kilobot.c`.

A shallow embedding of the neighbor table, the receive ring buffer, the event
classifier and the reaction handlers of `lulu_kilobot.c`, followed by the
properties proved about them.

Conventions of the embedding.

* `mydata` (the `USERDATA` structure) is passed explicitly. The actuator calls
  `spinup_motors`, `set_motors` and `set_color` are recorded, oldest first, in
  the `issued` list of a `Kilobot`.
* The array `neighbors[MAX_NEIGHBORS]` is a list; its length plays the role of
  `MAX_NEIGHBORS` in every loop bound and in every `i == MAX_NEIGHBORS` test.
  `setup` builds it with `MAX_NEIGHBORS` entries. The loop counters are
  `uint8_t`, so the C loops terminate only for `MAX_NEIGHBORS <= 255`.
* `kilo_ticks` is the 32-bit tick counter of kilolib, so the deadline
  `kilo_ticks + FORGET_NEIGHBOR_INTERVAL` is taken modulo `2^32`. The decoded
  identifier is a `uint16_t` and the distance a `uint8_t`, as declared in
  `process_message`. The counter `nr_neighbors` is a natural number: it is only
  incremented when a free slot is taken, so from `setup` on it stays within
  the table length.
* The header `lulu_kilobot.h` is not among the sources. Its constants
  (`MAX_NEIGHBORS`, `NO_ID`, `FORGET_NEIGHBOR_INTERVAL`,
  `PARAM_DISTANCE_THRESHOLD`, the message indices, `colorValues`) and the
  kilolib collaborators (`estimate_distance`, `message_crc`, the motor
  calibration values) are parameters, collected in `Params`. Its ring-buffer
  macros (`RB_init`, `RB_empty`, `RB_front`, `RB_back`, `RB_popfront`,
  `RB_pushback`) are modelled from the specification; the storage `RXBuffer`
  is a list whose length plays the role of `RB_SIZE`. Of `RB_pushback` the
  specification tells only that it always appends; what it does once the tail
  has met the head is an explicit argument of `message_rx`. The table
  `handlers` is declared outside `lulu_kilobot.c` as well and is modelled from
  the specification.
* `loop` reads `kilo_ticks` once per call. Its drain `while` loop carries a
  fuel bound and returns `none` when the bound is reached before the buffer is
  empty; the properties show that a bound above the number of buffered
  messages is enough. Debug output and the pacing `delay` are not modelled.
-/

namespace LuluKilobot

/-! ## Data model -/

/-- Motion states, in the order of `motionNames`. -/
inductive motion_t where
  | MOTION_STOP
  | MOTION_STRAIGHT
  | MOTION_LEFT
  | MOTION_RIGHT
deriving DecidableEq, Repr

/-- Indicator colors, in the order of `colorNames`. -/
inductive color_t where
  | COLOR_OFF
  | COLOR_RED
  | COLOR_GREEN
  | COLOR_BLUE
  | COLOR_WHITE
deriving DecidableEq, Repr

/-- Events written to `current_event` by `procInputModule`. -/
inductive event_t where
  | EVENT_ALL_NEIGHBORS_DISTANT
  | EVENT_NEIGHBOR_CLOSE
deriving DecidableEq, Repr

/-- One entry of `mydata->neighbors`. -/
structure Neighbor_t where
  uid : Nat
  symbolic_id : Nat
  distance : Nat
  distance_prev : Nat
  timexp_forget : Nat
deriving DecidableEq, Repr

/-- The kilolib message: payload bytes, type and checksum. -/
structure message_t where
  data : List Nat
  type : Nat
  crc : Nat
deriving DecidableEq, Repr, Inhabited

/-- The kilolib raw distance measurement. -/
structure distance_measurement_t where
  low_gain : Nat
  high_gain : Nat
deriving DecidableEq, Repr, Inhabited

/-- One entry of the receive ring buffer: a copy of the message and of its
distance measurement. -/
structure Received_message_t where
  msg : message_t
  dist : distance_measurement_t
deriving DecidableEq, Repr, Inhabited

/-- The per-robot data `mydata` points to. -/
structure USERDATA where
  neighbors : List Neighbor_t
  nr_neighbors : Nat
  neighbor_index : Nat
  current_event : event_t
  current_motion_state : motion_t
  current_led_color : color_t
  msg_tx : message_t
  RXBuffer : List Received_message_t
  RXHead : Nat
  RXTail : Nat
deriving DecidableEq, Repr

/-- Actuator primitives of kilolib, as issued by the controller. -/
inductive Cmd where
  | spinup_motors
  | set_motors (left right : Nat)
  | set_color (rgb : Nat)
deriving DecidableEq, Repr

/-- The controller data together with the actuator commands issued so far
(oldest first). -/
structure Kilobot where
  mydata : USERDATA
  issued : List Cmd
deriving DecidableEq, Repr

/-- Constants of the absent header and collaborators supplied by kilolib. -/
structure Params where
  MAX_NEIGHBORS : Nat
  NO_ID : Nat
  FORGET_NEIGHBOR_INTERVAL : Nat
  PARAM_DISTANCE_THRESHOLD : Nat
  INDEX_MSG_OWNER_UID_LOW : Nat
  INDEX_MSG_OWNER_UID_HIGH : Nat
  NORMAL : Nat
  colorValues : color_t → Nat
  estimate_distance : distance_measurement_t → Nat
  message_crc : message_t → Nat
  kilo_straight_left : Nat
  kilo_straight_right : Nat
  kilo_turn_left : Nat
  kilo_turn_right : Nat

/-- The kilolib macro `RGB(r, g, b)`: two bits per channel. -/
def RGB (r g b : Nat) : Nat :=
  (r &&& 3) ||| ((g &&& 3) <<< 2) ||| ((b &&& 3) <<< 4)

/-! ## Motion and reaction handlers -/

/-- The motor commands of the `switch (dir_new)` in `set_motion`. -/
def motor_commands (P : Params) : motion_t → List Cmd
  | .MOTION_STOP => [Cmd.set_motors 0 0]
  | .MOTION_STRAIGHT =>
      [Cmd.spinup_motors, Cmd.set_motors P.kilo_straight_left P.kilo_straight_right]
  | .MOTION_LEFT => [Cmd.spinup_motors, Cmd.set_motors P.kilo_turn_left 0]
  | .MOTION_RIGHT => [Cmd.spinup_motors, Cmd.set_motors 0 P.kilo_turn_right]

/-- The function `set_motion`: returns at once when the requested direction is
the current one, otherwise issues the motor commands and records the new
direction. -/
def set_motion (P : Params) (dir_new : motion_t) (k : Kilobot) : Kilobot :=
  if dir_new = k.mydata.current_motion_state then k
  else
    { mydata := { k.mydata with current_motion_state := dir_new }
      issued := k.issued ++ motor_commands P dir_new }

/-- Assignment to `mydata->current_led_color`. -/
def set_led_color (c : color_t) (k : Kilobot) : Kilobot :=
  { k with mydata := { k.mydata with current_led_color := c } }

/-- The kilolib call `set_color(rgb)`. -/
def set_color (rgb : Nat) (k : Kilobot) : Kilobot :=
  { k with issued := k.issued ++ [Cmd.set_color rgb] }

/-- The function `handle_neighbor_close`; `rand` is the value returned by
`rand()` (or `rand_soft()`). -/
def handle_neighbor_close (P : Params) (rand : Nat) (k : Kilobot) : Kilobot :=
  let options_count := 4
  let rand_value := (rand % options_count) % 256
  let k1 :=
    match rand_value with
    | 0 => set_motion P .MOTION_STRAIGHT (set_led_color .COLOR_GREEN k)
    | 1 => set_motion P .MOTION_STRAIGHT (set_led_color .COLOR_GREEN k)
    | 2 => set_motion P .MOTION_LEFT (set_led_color .COLOR_RED k)
    | 3 => set_motion P .MOTION_RIGHT (set_led_color .COLOR_BLUE k)
    | _ => k
  set_color (P.colorValues k1.mydata.current_led_color) k1

/-- The function `handle_all_neighbors_distant`. -/
def handle_all_neighbors_distant (P : Params) (k : Kilobot) : Kilobot :=
  set_motion P .MOTION_STOP (set_led_color .COLOR_WHITE (set_color (RGB 3 3 3) k))

/-! ## Neighbor table -/

/-- The slot value written by `setup` and by `forget_neighbors`. -/
def free_slot (P : Params) : Neighbor_t :=
  { uid := P.NO_ID, symbolic_id := P.NO_ID, distance := 0, distance_prev := 0,
    timexp_forget := 0 }

/-- The loop of `forget_neighbors` over the slots in index order, threading
`nr_neighbors`. -/
def forget_loop (P : Params) (kilo_ticks : Nat) :
    List Neighbor_t → Nat → List Neighbor_t × Nat
  | [], nr => ([], nr)
  | n :: rest, nr =>
    if kilo_ticks ≥ n.timexp_forget ∧ n.timexp_forget > 0 then
      let r := forget_loop P kilo_ticks rest (if nr > 0 then nr - 1 else 0)
      ({ n with uid := P.NO_ID, symbolic_id := P.NO_ID, distance := 0,
                distance_prev := 0, timexp_forget := 0 } :: r.1, r.2)
    else
      let r := forget_loop P kilo_ticks rest nr
      (n :: r.1, r.2)

/-- The function `forget_neighbors` at tick `kilo_ticks`. -/
def forget_neighbors (P : Params) (kilo_ticks : Nat) (s : USERDATA) : USERDATA :=
  let r := forget_loop P kilo_ticks s.neighbors s.nr_neighbors
  { s with neighbors := r.1, nr_neighbors := r.2 }

/-- Value of `i` after `for (i = 0; i < MAX_NEIGHBORS; i++) if (neighbors[i].uid
== id) break;`: the first index holding `id`, or the table length. -/
def search_uid (id : Nat) : List Neighbor_t → Nat
  | [] => 0
  | n :: rest => if n.uid = id then 0 else search_uid id rest + 1

/-- Identifier decoded from the payload: `data[LOW] | data[HIGH] << 8`, stored
in a `uint16_t`. -/
def msg_id (P : Params) (m : Received_message_t) : Nat :=
  (m.msg.data.getD P.INDEX_MSG_OWNER_UID_LOW 0 |||
    (m.msg.data.getD P.INDEX_MSG_OWNER_UID_HIGH 0 <<< 8)) % 65536

/-- Distance of a received message: `estimate_distance` stored in a
`uint8_t`. -/
def msg_distance (P : Params) (m : Received_message_t) : Nat :=
  P.estimate_distance m.dist % 256

/-- Lines 145-161 of `process_message`: the update of the chosen slot. -/
def store_observation (P : Params) (kilo_ticks id distance : Nat) (n : Neighbor_t) :
    Neighbor_t :=
  let n1 := { n with uid := id, symbolic_id := id }
  let n2 :=
    if n1.distance = n1.distance_prev ∧ n1.distance = 0 then
      { n1 with distance := distance, distance_prev := distance }
    else
      { n1 with distance_prev := n1.distance, distance := distance }
  { n2 with timexp_forget := (kilo_ticks + P.FORGET_NEIGHBOR_INTERVAL) % 4294967296 }

/-- The function `process_message` at tick `kilo_ticks`; `front` is the entry
`RB_front()` designates. -/
def process_message (P : Params) (kilo_ticks : Nat) (front : Received_message_t)
    (s : USERDATA) : USERDATA :=
  let distance := msg_distance P front
  let id := msg_id P front
  let i1 := search_uid id s.neighbors
  let i2 := if i1 = s.neighbors.length then search_uid P.NO_ID s.neighbors else i1
  let nr :=
    if i1 = s.neighbors.length ∧ i2 < s.neighbors.length then s.nr_neighbors + 1
    else s.nr_neighbors
  if i2 = s.neighbors.length then s
  else
    { s with
      nr_neighbors := nr
      neighbors :=
        s.neighbors.set i2
          (store_observation P kilo_ticks id distance (s.neighbors.getD i2 (free_slot P))) }

/-- The scan of `procInputModule`: the final value of `dist_big`. -/
def dist_big (P : Params) : List Neighbor_t → Bool
  | [] => true
  | n :: rest =>
    if n.distance < P.PARAM_DISTANCE_THRESHOLD ∧ n.uid ≠ P.NO_ID then false
    else dist_big P rest

/-- The function `procInputModule`. -/
def procInputModule (P : Params) (s : USERDATA) : USERDATA :=
  if dist_big P s.neighbors then
    { s with current_event := .EVENT_ALL_NEIGHBORS_DISTANT }
  else
    { s with current_event := .EVENT_NEIGHBOR_CLOSE }

/-! ## Receive ring buffer -/

/-- Modelled from the spec: the macro `RB_init` of the absent header. The
queue is circular storage with head and tail indices; both are reset. -/
def RB_init (s : USERDATA) : USERDATA :=
  { s with RXHead := 0, RXTail := 0 }

/-- Modelled from the spec: the macro `RB_empty` of the absent header. With one
slot of the storage kept in reserve, the queue is empty exactly when head and
tail coincide. -/
def RB_empty (s : USERDATA) : Bool :=
  decide (s.RXHead = s.RXTail)

/-- Modelled from the spec: the macro `RB_front` of the absent header, the
oldest stored entry. -/
def RB_front (s : USERDATA) : Received_message_t :=
  s.RXBuffer.getD s.RXHead default

/-- Modelled from the spec: the macro `RB_popfront` of the absent header, which
advances the head index around the storage. -/
def RB_popfront (s : USERDATA) : USERDATA :=
  { s with RXHead := (s.RXHead + 1) % s.RXBuffer.length }

/-- The entries a drain `while (!RB_empty()) { ...RB_front()...; RB_popfront(); }`
visits, in order; `fuel` bounds the number of iterations. -/
def RB_drain : Nat → USERDATA → List Received_message_t
  | 0, _ => []
  | fuel + 1, s =>
    if RB_empty s then [] else RB_front s :: RB_drain fuel (RB_popfront s)

/-- The unprocessed entries of the receive buffer, oldest first. -/
def RB_contents (s : USERDATA) : List Received_message_t :=
  RB_drain s.RXBuffer.length s

/-- The function `setup_message` for the robot identifier `kilo_uid`. -/
def setup_message (P : Params) (kilo_uid : Nat) (s : USERDATA) : USERDATA :=
  let m1 := { s.msg_tx with type := P.NORMAL }
  let m2 := { m1 with data := m1.data.set P.INDEX_MSG_OWNER_UID_LOW (kilo_uid &&& 0xFF) }
  let m3 :=
    { m2 with data := m2.data.set P.INDEX_MSG_OWNER_UID_HIGH ((kilo_uid >>> 8) % 256) }
  { s with msg_tx := { m3 with crc := P.message_crc m3 } }

/-- The function `setup`; `s` is the content of `mydata` before the call (the
motion state and the color are not initialised by `setup`). -/
def setup (P : Params) (kilo_uid : Nat) (s : USERDATA) : USERDATA :=
  let s1 :=
    { s with nr_neighbors := 0, neighbor_index := 0,
             current_event := .EVENT_ALL_NEIGHBORS_DISTANT }
  let s2 := setup_message P kilo_uid s1
  let s3 := { s2 with neighbors := List.replicate P.MAX_NEIGHBORS (free_slot P) }
  RB_init s3


/-! ## Vocabulary of the statements -/

/-- Number of occupied slots: those with `uid != NO_ID`. -/
def occupied (P : Params) (ns : List Neighbor_t) : Nat :=
  ns.countP (fun n => decide (n.uid ≠ P.NO_ID))

/-- A call made on the neighbor table: `process_message` for a received
message, or `forget_neighbors`, each at its own tick. -/
inductive TableOp where
  | observe (kilo_ticks : Nat) (m : Received_message_t)
  | evict (kilo_ticks : Nat)
deriving DecidableEq, Repr

/-- Effect of one call on `mydata`. -/
def apply_op (P : Params) (s : USERDATA) : TableOp → USERDATA
  | .observe kilo_ticks m => process_message P kilo_ticks m s
  | .evict kilo_ticks => forget_neighbors P kilo_ticks s

/-- Effect of a finite sequence of calls, first call first. -/
def run_ops (P : Params) (ops : List TableOp) (s : USERDATA) : USERDATA :=
  ops.foldl (apply_op P) s

/-- The identifier carried by an `observe` call differs from `NO_ID`. -/
def sender_known (P : Params) : TableOp → Prop
  | .observe _ m => msg_id P m ≠ P.NO_ID
  | .evict _ => True

instance (P : Params) (op : TableOp) : Decidable (sender_known P op) := by
  cases op <;> unfold sender_known <;> infer_instance

/-- A received message whose payload carries `id` in bytes 0 and 1 and whose
measurement is `d`. -/
def rx_of (id d : Nat) : Received_message_t :=
  { msg := { data := [id % 256, id / 256, 0, 0, 0, 0, 0, 0, 0], type := 0, crc := 0 }
    dist := { low_gain := 0, high_gain := d } }

/-- Concrete constants used for the worked examples: two slots, `NO_ID` 65535,
a forgetting interval of 64 ticks, threshold 50, identifier bytes 0 and 1, and
the distance estimate read from `high_gain`. -/
def demo_params : Params :=
  { MAX_NEIGHBORS := 2
    NO_ID := 65535
    FORGET_NEIGHBOR_INTERVAL := 64
    PARAM_DISTANCE_THRESHOLD := 50
    INDEX_MSG_OWNER_UID_LOW := 0
    INDEX_MSG_OWNER_UID_HIGH := 1
    NORMAL := 0
    colorValues := fun c =>
      match c with
      | .COLOR_OFF => RGB 0 0 0
      | .COLOR_RED => RGB 3 0 0
      | .COLOR_GREEN => RGB 0 3 0
      | .COLOR_BLUE => RGB 0 0 3
      | .COLOR_WHITE => RGB 3 3 3
    estimate_distance := fun d => d.high_gain
    message_crc := fun _ => 0
    kilo_straight_left := 70
    kilo_straight_right := 70
    kilo_turn_left := 70
    kilo_turn_right := 70 }

/-- Content of `mydata` before `setup` in the worked examples. -/
def demo_data : USERDATA :=
  { neighbors := []
    nr_neighbors := 0
    neighbor_index := 0
    current_event := .EVENT_ALL_NEIGHBORS_DISTANT
    current_motion_state := .MOTION_STOP
    current_led_color := .COLOR_OFF
    msg_tx := { data := [0, 0, 0, 0, 0, 0, 0, 0, 0], type := 0, crc := 0 }
    RXBuffer := [default, default, default]
    RXHead := 0
    RXTail := 0 }

/-- Every free slot carries zero distances and no deadline, as `setup` and
`forget_neighbors` leave it. -/
def free_slots_clean (P : Params) (ns : List Neighbor_t) : Prop :=
  ∀ n ∈ ns, n.uid = P.NO_ID →
    n.distance = 0 ∧ n.distance_prev = 0 ∧ n.timexp_forget = 0

instance (P : Params) (ns : List Neighbor_t) : Decidable (free_slots_clean P ns) := by
  unfold free_slots_clean; infer_instance

/-- The call is a `process_message` for a sender other than `id`. -/
def other_sender (P : Params) (id : Nat) : TableOp → Prop
  | .observe _ m => msg_id P m ≠ id
  | .evict _ => False

instance (P : Params) (id : Nat) (op : TableOp) : Decidable (other_sender P id op) := by
  cases op <;> unfold other_sender <;> infer_instance

/-- The receive buffer stores exactly the entries `l`, oldest first: they sit
at the storage positions from the head on, and the tail is right behind
them. -/
def RB_holds (s : USERDATA) (l : List Received_message_t) : Prop :=
  l.length < s.RXBuffer.length ∧ s.RXHead < s.RXBuffer.length ∧
  s.RXTail = (s.RXHead + l.length) % s.RXBuffer.length ∧
  ∀ k, k < l.length →
    s.RXBuffer[(s.RXHead + k) % s.RXBuffer.length]? = l[k]?

/-! ## The control loop -/

/-- Modelled from the spec: the table `handlers`, declared outside
`lulu_kilobot.c`, maps each event to its handler: all neighbors distant to
`handle_all_neighbors_distant`, neighbor close to `handle_neighbor_close`;
`rand` is the value the random source returns if the handler asks for one. -/
def handlers (P : Params) (rand : Nat) : event_t → Kilobot → Kilobot
  | .EVENT_ALL_NEIGHBORS_DISTANT => handle_all_neighbors_distant P
  | .EVENT_NEIGHBOR_CLOSE => handle_neighbor_close P rand

/-- The loop `while (!RB_empty()) { process_message(); RB_popfront(); }` of
`loop`; `fuel` bounds the number of tests of the loop condition, and `none`
means that the loop is still running when the bound is reached. -/
def drain_loop (P : Params) (kilo_ticks : Nat) : Nat → USERDATA → Option USERDATA
  | 0, _ => none
  | fuel + 1, s =>
    if RB_empty s then some s
    else drain_loop P kilo_ticks fuel
      (RB_popfront (process_message P kilo_ticks (RB_front s) s))

/-- The function `loop` (without `USING_ID_SECURITY`) at tick `kilo_ticks`:
eviction, drain of the receive buffer, classification, dispatch. -/
def loop (P : Params) (kilo_ticks rand fuel : Nat) (k : Kilobot) : Option Kilobot :=
  let s1 := forget_neighbors P kilo_ticks k.mydata
  match drain_loop P kilo_ticks fuel s1 with
  | none => none
  | some s2 =>
    let s3 := procInputModule P s2
    some (handlers P rand s3.current_event { k with mydata := s3 })

/-- One scheduling step. Between two calls of `loop` only the receive path
runs, and it touches nothing but the receive buffer; a step therefore gives the
three fields of the buffer as `loop` finds them, the messages `pending` the
buffer then holds (oldest first), the tick of the call and the value `rand` of
the random source. -/
structure LoopCall where
  RXBuffer : List Received_message_t
  RXHead : Nat
  RXTail : Nat
  pending : List Received_message_t
  kilo_ticks : Nat
  rand : Nat
deriving DecidableEq, Repr

/-- The content of `mydata` with the receive buffer as the step gives it. -/
def with_buffer (c : LoopCall) (s : USERDATA) : USERDATA :=
  { s with RXBuffer := c.RXBuffer, RXHead := c.RXHead, RXTail := c.RXTail }

/-- A run of scheduling steps, first step first. -/
def run_loops (P : Params) (fuel : Nat) : List LoopCall → Kilobot → Option Kilobot
  | [], k => some k
  | c :: rest, k =>
    match loop P c.kilo_ticks c.rand fuel { k with mydata := with_buffer c k.mydata } with
    | none => none
    | some k1 => run_loops P fuel rest k1

/-- The calls `process_message` for the messages `ms`, oldest first, all at
tick `kilo_ticks`. -/
def observe_all (P : Params) (kilo_ticks : Nat) (ms : List Received_message_t)
    (s : USERDATA) : USERDATA :=
  ms.foldl (fun acc m => process_message P kilo_ticks m acc) s

/-- The content of `mydata` once `loop` has evicted at tick `kilo_ticks` and
processed the buffered messages `ms` in order: the table and the counter are
those of `forget_neighbors` followed by the `process_message` calls, and the
head index of the receive buffer has reached the tail index. -/
def after_drain (P : Params) (kilo_ticks : Nat) (ms : List Received_message_t)
    (s : USERDATA) : USERDATA :=
  { observe_all P kilo_ticks ms (forget_neighbors P kilo_ticks s) with RXHead := s.RXTail }

/-- The deadline computed by an `observe` call does not wrap around. -/
def no_wrap (P : Params) : TableOp → Prop
  | .observe kilo_ticks _ => kilo_ticks + P.FORGET_NEIGHBOR_INTERVAL < 4294967296
  | .evict _ => True

instance (P : Params) (op : TableOp) : Decidable (no_wrap P op) := by
  cases op <;> unfold no_wrap <;> infer_instance

/-- No identifier other than `NO_ID` sits in two slots. -/
def uids_distinct (P : Params) (ns : List Neighbor_t) : Prop :=
  ns.Pairwise (fun a b => a.uid ≠ P.NO_ID → a.uid ≠ b.uid)

/-- Every occupied slot carries a deadline. -/
def deadlines_set (P : Params) (ns : List Neighbor_t) : Prop :=
  ∀ n ∈ ns, n.uid ≠ P.NO_ID → n.timexp_forget ≠ 0

/-- The slot `process_message` writes for a message heard at tick
`kilo_ticks` when it takes a slot whose distance fields are 0. -/
def fresh_entry (P : Params) (kilo_ticks : Nat) (m : Received_message_t) : Neighbor_t :=
  { uid := msg_id P m, symbolic_id := msg_id P m, distance := msg_distance P m,
    distance_prev := msg_distance P m,
    timexp_forget := (kilo_ticks + P.FORGET_NEIGHBOR_INTERVAL) % 4294967296 }

instance (s : USERDATA) (l : List Received_message_t) : Decidable (RB_holds s l) := by
  unfold RB_holds; infer_instance

/-- The constants of the end-to-end scenario: two slots, horizon 100,
threshold 50. -/
def scenario_params : Params :=
  { demo_params with FORGET_NEIGHBOR_INTERVAL := 100 }

/-- The facts about the neighbor table that every call of `loop` keeps: the
counter agrees with the occupied slots, the free slots are clean, and every
occupied slot carries a deadline. -/
def table_ok (P : Params) (s : USERDATA) : Prop :=
  s.nr_neighbors = occupied P s.neighbors ∧ free_slots_clean P s.neighbors ∧
    deadlines_set P s.neighbors

/-- The fact `RB_holds`, stated on the three fields of the receive buffer. -/
def ring_holds (buf : List Received_message_t) (head tail : Nat)
    (l : List Received_message_t) : Prop :=
  l.length < buf.length ∧ head < buf.length ∧
  tail = (head + l.length) % buf.length ∧
  ∀ k, k < l.length → buf[(head + k) % buf.length]? = l[k]?

instance (buf : List Received_message_t) (head tail : Nat)
    (l : List Received_message_t) : Decidable (ring_holds buf head tail l) := by
  unfold ring_holds; infer_instance

/-- The messages waiting at a call of `loop` come from senders other than
`NO_ID`, the deadline computed at its tick does not wrap around, and the
receive buffer of the step holds exactly these messages. -/
def call_ok (P : Params) (c : LoopCall) : Prop :=
  (∀ m ∈ c.pending, msg_id P m ≠ P.NO_ID) ∧
    c.kilo_ticks + P.FORGET_NEIGHBOR_INTERVAL < 4294967296 ∧
    ring_holds c.RXBuffer c.RXHead c.RXTail c.pending

instance (P : Params) (c : LoopCall) : Decidable (call_ok P c) := by
  unfold call_ok; infer_instance

/-- Constants with a forgetting interval of 0 ticks. -/
def zero_interval_params : Params :=
  { demo_params with FORGET_NEIGHBOR_INTERVAL := 0 }

/-- The content of `mydata` after `setup`, with the messages of senders 5 and
7 waiting in the receive buffer. -/
def demo_waiting : USERDATA :=
  { setup demo_params 1 demo_data with
    RXBuffer := [rx_of 5 10, rx_of 7 80, default], RXHead := 0, RXTail := 2 }

/-- A step of the worked examples: sender 7 at distance 80 is waiting, `loop`
runs at tick 3. -/
def far_call : LoopCall :=
  { RXBuffer := [rx_of 7 80, default, default], RXHead := 0, RXTail := 1,
    pending := [rx_of 7 80], kilo_ticks := 3, rand := 2 }

/-- A step of the worked examples: sender 5 at distance 10 is waiting, `loop`
runs at tick 70. -/
def close_call : LoopCall :=
  { RXBuffer := [rx_of 7 80, rx_of 5 10, default], RXHead := 1, RXTail := 2,
    pending := [rx_of 5 10], kilo_ticks := 70, rand := 1 }

/-- A step of the worked examples: sender 5 at distance 10 is waiting, `loop`
runs at tick 5. -/
def early_call : LoopCall :=
  { RXBuffer := [rx_of 5 10, default, default], RXHead := 0, RXTail := 1,
    pending := [rx_of 5 10], kilo_ticks := 5, rand := 0 }

/-- Every occupied slot has its deadline after the tick `now`. -/
def deadlines_after (P : Params) (now : Nat) (ns : List Neighbor_t) : Prop :=
  ∀ n ∈ ns, n.uid ≠ P.NO_ID → now < n.timexp_forget

/-! # Properties -/

/-! ## Scanning the table -/

theorem search_uid_append (id : Nat) (l1 : List Neighbor_t) (n : Neighbor_t)
    (l2 : List Neighbor_t) (h1 : ∀ x ∈ l1, x.uid ≠ id) (h2 : n.uid = id) :
    search_uid id (l1 ++ n :: l2) = l1.length := by
  induction l1 with
  | nil => simp [search_uid, h2]
  | cons a l ih =>
    have ha : a.uid ≠ id := h1 a (by simp)
    have hl : ∀ x ∈ l, x.uid ≠ id := fun x hx => h1 x (by simp [hx])
    simp [search_uid, ha, ih hl]

theorem search_uid_absent (id : Nat) (ns : List Neighbor_t)
    (h : ∀ x ∈ ns, x.uid ≠ id) : search_uid id ns = ns.length := by
  induction ns with
  | nil => rfl
  | cons a l ih =>
    have ha : a.uid ≠ id := h a (by simp)
    have hl : ∀ x ∈ l, x.uid ≠ id := fun x hx => h x (by simp [hx])
    simp [search_uid, ha, ih hl]

/-- Either no slot holds `id`, or the table splits at the first slot that
does. -/
theorem uid_cases (id : Nat) (ns : List Neighbor_t) :
    (∀ x ∈ ns, x.uid ≠ id) ∨
    ∃ l1 n l2, ns = l1 ++ n :: l2 ∧ n.uid = id ∧ ∀ x ∈ l1, x.uid ≠ id := by
  induction ns with
  | nil => left; simp
  | cons a l ih =>
    by_cases ha : a.uid = id
    · right
      exact ⟨[], a, l, rfl, ha, by simp⟩
    · rcases ih with h | ⟨l1, n, l2, hl, hn, h1⟩
      · left
        intro x hx
        rcases List.mem_cons.mp hx with rfl | hx
        · exact ha
        · exact h x hx
      · right
        refine ⟨a :: l1, n, l2, by simp [hl], hn, ?_⟩
        intro x hx
        rcases List.mem_cons.mp hx with rfl | hx
        · exact ha
        · exact h1 x hx

theorem set_at_split {α : Type} (l1 : List α) (a b : α) (l2 : List α) :
    (l1 ++ a :: l2).set l1.length b = l1 ++ b :: l2 := by
  induction l1 with
  | nil => rfl
  | cons x l ih => simp [ih]

theorem getD_at_split {α : Type} (l1 : List α) (a d : α) (l2 : List α) :
    (l1 ++ a :: l2).getD l1.length d = a := by
  induction l1 with
  | nil => rfl
  | cons x l ih => simpa using ih

/-! ## The three outcomes of `process_message` -/

/-- Refresh: the first slot holding the identifier is rewritten, nothing else
changes. -/
theorem process_message_update (P : Params) (t : Nat) (m : Received_message_t)
    (s : USERDATA) (l1 : List Neighbor_t) (n : Neighbor_t) (l2 : List Neighbor_t)
    (hs : s.neighbors = l1 ++ n :: l2) (h1 : ∀ x ∈ l1, x.uid ≠ msg_id P m)
    (h2 : n.uid = msg_id P m) :
    process_message P t m s =
      { s with neighbors :=
          l1 ++ store_observation P t (msg_id P m) (msg_distance P m) n :: l2 } := by
  have hi := search_uid_append (msg_id P m) l1 n l2 h1 h2
  have hlen : l1.length ≠ (l1 ++ n :: l2).length := by simp
  unfold process_message
  simp only [hs, hi, if_neg hlen, set_at_split, getD_at_split]
  rw [if_neg (fun h => hlen h.1)]

/-- Insertion: no slot holds the identifier, the first free slot is taken and
the counter is incremented. -/
theorem process_message_insert (P : Params) (t : Nat) (m : Received_message_t)
    (s : USERDATA) (l1 : List Neighbor_t) (n : Neighbor_t) (l2 : List Neighbor_t)
    (hs : s.neighbors = l1 ++ n :: l2) (hnew : ∀ x ∈ s.neighbors, x.uid ≠ msg_id P m)
    (h1 : ∀ x ∈ l1, x.uid ≠ P.NO_ID) (h2 : n.uid = P.NO_ID) :
    process_message P t m s =
      { s with
        nr_neighbors := s.nr_neighbors + 1
        neighbors :=
          l1 ++ store_observation P t (msg_id P m) (msg_distance P m) n :: l2 } := by
  have hi := search_uid_absent (msg_id P m) s.neighbors hnew
  have hj := search_uid_append P.NO_ID l1 n l2 h1 h2
  have hlen : l1.length ≠ (l1 ++ n :: l2).length := by simp
  have hlt : l1.length < (l1 ++ n :: l2).length := by simp
  unfold process_message
  simp only [hi, if_true, true_and]
  simp only [hs, hj, if_neg hlen, if_pos hlt, set_at_split, getD_at_split]

/-- Rejection: no slot holds the identifier and no slot is free; `mydata` is
returned as it was. -/
theorem process_message_reject (P : Params) (t : Nat) (m : Received_message_t)
    (s : USERDATA) (hnew : ∀ x ∈ s.neighbors, x.uid ≠ msg_id P m)
    (hfull : ∀ x ∈ s.neighbors, x.uid ≠ P.NO_ID) :
    process_message P t m s = s := by
  have hi := search_uid_absent (msg_id P m) s.neighbors hnew
  have hj := search_uid_absent P.NO_ID s.neighbors hfull
  unfold process_message
  simp only [hi, hj, if_true]

/-! ## The eviction loop -/

theorem forget_loop_fst (P : Params) (t : Nat) (ns : List Neighbor_t) (nr : Nat) :
    (forget_loop P t ns nr).1 =
      ns.map
        (fun n => if t ≥ n.timexp_forget ∧ n.timexp_forget > 0 then free_slot P else n) := by
  induction ns generalizing nr with
  | nil => rfl
  | cons a l ih =>
    unfold forget_loop
    split
    · rename_i h
      simp only [List.map_cons, if_pos h, ih]
      rfl
    · rename_i h
      simp only [List.map_cons, if_neg h, ih]

theorem forget_loop_snd (P : Params) (t : Nat) (ns : List Neighbor_t) (nr : Nat) :
    (forget_loop P t ns nr).2 =
      nr - ns.countP (fun n => decide (t ≥ n.timexp_forget ∧ n.timexp_forget > 0)) := by
  induction ns generalizing nr with
  | nil => simp [forget_loop]
  | cons a l ih =>
    unfold forget_loop
    split
    · rename_i h
      have hd : decide (t ≥ a.timexp_forget ∧ a.timexp_forget > 0) = true := by simpa using h
      simp only [ih, List.countP_cons, hd, if_true]
      split <;> omega
    · rename_i h
      have hd : ¬ (decide (t ≥ a.timexp_forget ∧ a.timexp_forget > 0) = true) := by
        simpa using h
      simp only [ih, List.countP_cons, if_neg hd]
      omega

theorem forget_neighbors_length (P : Params) (t : Nat) (s : USERDATA) :
    (forget_neighbors P t s).neighbors.length = s.neighbors.length := by
  simp [forget_neighbors, forget_loop_fst]

theorem forget_neighbors_slot (P : Params) (t : Nat) (s : USERDATA) (i : Nat) :
    (forget_neighbors P t s).neighbors[i]? =
      (s.neighbors[i]?).map
        (fun n => if t ≥ n.timexp_forget ∧ n.timexp_forget > 0 then free_slot P else n) := by
  simp [forget_neighbors, forget_loop_fst]

/-- With every deadline sitting on an occupied slot, the eviction loop keeps a
counter that is `c` above the number of occupied slots exactly `c` above it. -/
theorem forget_loop_counter (P : Params) (t : Nat) (ns : List Neighbor_t) (c : Nat)
    (h : ∀ n ∈ ns, n.timexp_forget ≠ 0 → n.uid ≠ P.NO_ID) :
    (forget_loop P t ns (occupied P ns + c)).2 =
      occupied P (forget_loop P t ns (occupied P ns + c)).1 + c := by
  induction ns generalizing c with
  | nil => simp [forget_loop, occupied]
  | cons a l ih =>
    have hl : ∀ n ∈ l, n.timexp_forget ≠ 0 → n.uid ≠ P.NO_ID :=
      fun n hn => h n (by simp [hn])
    unfold forget_loop
    split
    · rename_i hexp
      have ha : a.uid ≠ P.NO_ID := h a (by simp) (by omega)
      have hocc : occupied P (a :: l) = occupied P l + 1 := by
        simp [occupied, List.countP_cons, ha]
      have hnr : (if occupied P (a :: l) + c > 0 then occupied P (a :: l) + c - 1 else 0)
          = occupied P l + c := by
        rw [hocc]; split <;> omega
      simp only [hnr, ih c hl]
      simp [occupied, List.countP_cons]
    · by_cases ha : a.uid = P.NO_ID
      · have hocc : occupied P (a :: l) = occupied P l := by
          simp [occupied, List.countP_cons, ha]
        simp only [hocc, ih c hl]
        simp [occupied, List.countP_cons, ha]
      · have hocc : occupied P (a :: l) + c = occupied P l + (c + 1) := by
          simp [occupied, List.countP_cons, ha]; omega
        simp only [hocc, ih (c + 1) hl]
        simp [occupied, List.countP_cons, ha]; omega

/-! ## Invariants of the neighbor table -/

theorem free_slots_clean_deadline (P : Params) (ns : List Neighbor_t)
    (h : free_slots_clean P ns) : ∀ n ∈ ns, n.timexp_forget ≠ 0 → n.uid ≠ P.NO_ID :=
  fun n hn ht hu => ht (h n hn hu).2.2

theorem store_observation_uid (P : Params) (t id d : Nat) (n : Neighbor_t) :
    (store_observation P t id d n).uid = id := by
  unfold store_observation
  dsimp only
  split <;> rfl

theorem occupied_split (P : Params) (l1 : List Neighbor_t) (n : Neighbor_t)
    (l2 : List Neighbor_t) :
    occupied P (l1 ++ n :: l2) =
      occupied P l1 + (if n.uid ≠ P.NO_ID then 1 else 0) + occupied P l2 := by
  simp only [occupied, List.countP_append, List.countP_cons, List.countP_nil]
  by_cases h : n.uid = P.NO_ID
  · simp [h]
  · simp [h]
    omega

theorem free_slots_clean_split (P : Params) (l1 : List Neighbor_t) (n x : Neighbor_t)
    (l2 : List Neighbor_t) (h : free_slots_clean P (l1 ++ n :: l2))
    (hx : x.uid ≠ P.NO_ID) : free_slots_clean P (l1 ++ x :: l2) := by
  intro y hy hu
  rcases List.mem_append.mp hy with hy | hy
  · exact h y (by simp [hy]) hu
  · rcases List.mem_cons.mp hy with rfl | hy
    · exact absurd hu hx
    · exact h y (by simp [hy]) hu

/-- One `process_message` for an identifier other than `NO_ID` keeps the table
length, the agreement of the counter with the occupied slots, and the
cleanliness of the free slots. -/
theorem process_message_invariant (P : Params) (t : Nat) (m : Received_message_t)
    (s : USERDATA) (hid : msg_id P m ≠ P.NO_ID)
    (hnr : s.nr_neighbors = occupied P s.neighbors)
    (hclean : free_slots_clean P s.neighbors) :
    (process_message P t m s).neighbors.length = s.neighbors.length ∧
    (process_message P t m s).nr_neighbors = occupied P (process_message P t m s).neighbors ∧
    free_slots_clean P (process_message P t m s).neighbors := by
  have hu := store_observation_uid P t (msg_id P m) (msg_distance P m)
  rcases uid_cases (msg_id P m) s.neighbors with hnew | ⟨l1, n, l2, hs, hn, h1⟩
  · rcases uid_cases P.NO_ID s.neighbors with hfull | ⟨l1, n, l2, hs, hn, h1⟩
    · rw [process_message_reject P t m s hnew hfull]
      exact ⟨rfl, hnr, hclean⟩
    · rw [process_message_insert P t m s l1 n l2 hs hnew h1 hn]
      have hx : (store_observation P t (msg_id P m) (msg_distance P m) n).uid ≠ P.NO_ID := by
        rw [hu]; exact hid
      refine ⟨by simp [hs], ?_, ?_⟩
      · show s.nr_neighbors + 1 = occupied P (l1 ++ _ :: l2)
        rw [hnr, hs, occupied_split, occupied_split, if_pos hx, if_neg (not_not.mpr hn)]
        omega
      · rw [hs] at hclean
        exact free_slots_clean_split P l1 n _ l2 hclean hx
  · rw [process_message_update P t m s l1 n l2 hs h1 hn]
    have hx : (store_observation P t (msg_id P m) (msg_distance P m) n).uid ≠ P.NO_ID := by
      rw [hu]; exact hid
    have hn0 : n.uid ≠ P.NO_ID := by rw [hn]; exact hid
    refine ⟨by simp [hs], ?_, ?_⟩
    · show s.nr_neighbors = occupied P (l1 ++ _ :: l2)
      rw [hnr, hs, occupied_split, occupied_split, if_pos hx, if_pos hn0]
    · rw [hs] at hclean
      exact free_slots_clean_split P l1 n _ l2 hclean hx

/-- One `forget_neighbors` keeps the same three facts. -/
theorem forget_neighbors_invariant (P : Params) (t : Nat) (s : USERDATA)
    (hnr : s.nr_neighbors = occupied P s.neighbors)
    (hclean : free_slots_clean P s.neighbors) :
    (forget_neighbors P t s).neighbors.length = s.neighbors.length ∧
    (forget_neighbors P t s).nr_neighbors = occupied P (forget_neighbors P t s).neighbors ∧
    free_slots_clean P (forget_neighbors P t s).neighbors := by
  refine ⟨forget_neighbors_length P t s, ?_, ?_⟩
  · have h := forget_loop_counter P t s.neighbors 0
      (free_slots_clean_deadline P s.neighbors hclean)
    simp only [Nat.add_zero] at h
    simp only [forget_neighbors, hnr]
    exact h
  · intro n hn hu
    simp only [forget_neighbors, forget_loop_fst, List.mem_map] at hn
    rcases hn with ⟨a, ha, rfl⟩
    split at hu
    · rename_i hexp
      simp [hexp, free_slot]
    · rename_i hexp
      simp only [if_neg hexp]
      exact hclean a ha hu

theorem setup_table (P : Params) (kilo_uid : Nat) (s0 : USERDATA) :
    (setup P kilo_uid s0).neighbors = List.replicate P.MAX_NEIGHBORS (free_slot P) ∧
    (setup P kilo_uid s0).nr_neighbors = 0 := by
  simp [setup, RB_init, setup_message]

theorem setup_invariant (P : Params) (kilo_uid : Nat) (s0 : USERDATA) :
    (setup P kilo_uid s0).neighbors.length = P.MAX_NEIGHBORS ∧
    (setup P kilo_uid s0).nr_neighbors = occupied P (setup P kilo_uid s0).neighbors ∧
    free_slots_clean P (setup P kilo_uid s0).neighbors := by
  obtain ⟨h1, h2⟩ := setup_table P kilo_uid s0
  rw [h1, h2]
  refine ⟨by simp, ?_, ?_⟩
  · simp [occupied, List.countP_replicate, free_slot]
  · intro n hn _
    rw [List.eq_of_mem_replicate hn]
    simp [free_slot]

/-- The three facts hold after every sequence of calls with known senders that
starts from a state in which they hold. -/
theorem run_ops_invariant (P : Params) (ops : List TableOp) (s : USERDATA)
    (hops : ∀ op ∈ ops, sender_known P op)
    (hnr : s.nr_neighbors = occupied P s.neighbors)
    (hclean : free_slots_clean P s.neighbors) :
    (run_ops P ops s).neighbors.length = s.neighbors.length ∧
    (run_ops P ops s).nr_neighbors = occupied P (run_ops P ops s).neighbors ∧
    free_slots_clean P (run_ops P ops s).neighbors := by
  induction ops generalizing s with
  | nil => exact ⟨rfl, hnr, hclean⟩
  | cons op rest ih =>
    have hrest : ∀ o ∈ rest, sender_known P o := fun o ho => hops o (by simp [ho])
    have hop : sender_known P op := hops op (by simp)
    have step : (apply_op P s op).neighbors.length = s.neighbors.length ∧
        (apply_op P s op).nr_neighbors = occupied P (apply_op P s op).neighbors ∧
        free_slots_clean P (apply_op P s op).neighbors := by
      cases op with
      | observe t m => exact process_message_invariant P t m s hop hnr hclean
      | evict t => exact forget_neighbors_invariant P t s hnr hclean
    obtain ⟨hl, hn, hc⟩ := step
    have := ih (apply_op P s op) hrest hn hc
    simp only [run_ops, List.foldl_cons] at this ⊢
    exact ⟨this.1.trans hl, this.2.1, this.2.2⟩

theorem process_message_length (P : Params) (t : Nat) (m : Received_message_t)
    (s : USERDATA) :
    (process_message P t m s).neighbors.length = s.neighbors.length := by
  rcases uid_cases (msg_id P m) s.neighbors with hnew | ⟨l1, n, l2, hs, hn, h1⟩
  · rcases uid_cases P.NO_ID s.neighbors with hfull | ⟨l1, n, l2, hs, hn, h1⟩
    · rw [process_message_reject P t m s hnew hfull]
    · rw [process_message_insert P t m s l1 n l2 hs hnew h1 hn]
      simp [hs]
  · rw [process_message_update P t m s l1 n l2 hs h1 hn]
    simp [hs]

theorem run_ops_length (P : Params) (ops : List TableOp) (s : USERDATA) :
    (run_ops P ops s).neighbors.length = s.neighbors.length := by
  induction ops generalizing s with
  | nil => rfl
  | cons op rest ih =>
    have h := ih (apply_op P s op)
    simp only [run_ops, List.foldl_cons] at h ⊢
    rw [h]
    cases op with
    | observe t m => exact process_message_length P t m s
    | evict t => exact forget_neighbors_length P t s

theorem dist_big_iff (P : Params) (ns : List Neighbor_t) :
    dist_big P ns = true ↔
      ∀ n ∈ ns, n.uid ≠ P.NO_ID → P.PARAM_DISTANCE_THRESHOLD ≤ n.distance := by
  induction ns with
  | nil => simp [dist_big]
  | cons a l ih =>
    unfold dist_big
    split
    · rename_i h
      simp only [List.mem_cons, forall_eq_or_imp, false_iff, Bool.false_eq_true]
      intro hall
      have := hall.1 h.2
      omega
    · rename_i h
      rw [ih]
      simp only [List.mem_cons, forall_eq_or_imp, iff_and_self]
      intro _ hu
      by_contra hlt
      exact h ⟨by omega, hu⟩

/-! ## Neighbor table: properties -/

/-- C1 (amended): from the state `setup` produces, after every finite sequence
of `process_message` and `forget_neighbors` calls (any distances, any ticks) the
number of slots with `uid != NO_ID` is at most `MAX_NEIGHBORS`; and when every
message identifier differs from `NO_ID`, `nr_neighbors` equals that number. -/
theorem neighbor_count_invariant (P : Params) (kilo_uid : Nat) (s0 : USERDATA)
    (ops : List TableOp) :
    occupied P (run_ops P ops (setup P kilo_uid s0)).neighbors ≤ P.MAX_NEIGHBORS ∧
    ((∀ op ∈ ops, sender_known P op) →
      (run_ops P ops (setup P kilo_uid s0)).nr_neighbors =
        occupied P (run_ops P ops (setup P kilo_uid s0)).neighbors) := by
  obtain ⟨hlen, hnr, hclean⟩ := setup_invariant P kilo_uid s0
  constructor
  · have h := run_ops_length P ops (setup P kilo_uid s0)
    rw [hlen] at h
    rw [← h]
    exact List.countP_le_length _
  · intro hops
    exact (run_ops_invariant P ops (setup P kilo_uid s0) hops hnr hclean).2.1

/-- Witness for C1: two senders observed at tick 0, eviction at tick 64. -/
theorem neighbor_count_invariant_witness :
    (∀ op ∈ [TableOp.observe 0 (rx_of 5 10), TableOp.observe 0 (rx_of 7 80),
        TableOp.evict 64], sender_known demo_params op) ∧
    (run_ops demo_params [TableOp.observe 0 (rx_of 5 10), TableOp.observe 0 (rx_of 7 80),
        TableOp.evict 64] (setup demo_params 1 demo_data)).nr_neighbors =
      occupied demo_params (run_ops demo_params [TableOp.observe 0 (rx_of 5 10),
        TableOp.observe 0 (rx_of 7 80), TableOp.evict 64]
        (setup demo_params 1 demo_data)).neighbors :=
  ⟨by decide,
    (neighbor_count_invariant demo_params 1 demo_data
      [TableOp.observe 0 (rx_of 5 10), TableOp.observe 0 (rx_of 7 80),
        TableOp.evict 64]).2 (by decide)⟩

/-- C1 as stated fails: after a message from sender 5, a message whose
identifier equals `NO_ID` (65535), a second message from sender 5 at tick 1 and
`forget_neighbors` at tick 64, one slot is occupied while `nr_neighbors` is 0. -/
theorem neighbor_count_drift :
    (run_ops demo_params
      [TableOp.observe 0 (rx_of 5 10), TableOp.observe 0 (rx_of 65535 10),
        TableOp.observe 1 (rx_of 5 10), TableOp.evict 64]
      (setup demo_params 1 demo_data)).nr_neighbors = 0 ∧
    occupied demo_params (run_ops demo_params
      [TableOp.observe 0 (rx_of 5 10), TableOp.observe 0 (rx_of 65535 10),
        TableOp.observe 1 (rx_of 5 10), TableOp.evict 64]
      (setup demo_params 1 demo_data)).neighbors = 1 := by
  decide

/-- C3 (amended): an occupied slot whose deadline `timexp_forget` is `T`, with
`T` different from 0, is left unchanged by `forget_neighbors` at every tick
before `T` and is freed by `forget_neighbors` at tick `T`. -/
theorem forget_neighbors_boundary (P : Params) (s : USERDATA) (i : Nat) (n : Neighbor_t)
    (T : Nat) (hi : s.neighbors[i]? = some n) (hocc : n.uid ≠ P.NO_ID)
    (hT : n.timexp_forget = T) (h0 : T ≠ 0) :
    (∀ now, now < T → (forget_neighbors P now s).neighbors[i]? = some n) ∧
    (forget_neighbors P T s).neighbors[i]? = some (free_slot P) ∧
    (free_slot P).uid = P.NO_ID := by
  have _ := hocc
  refine ⟨?_, ?_, rfl⟩
  · intro now hnow
    rw [forget_neighbors_slot, hi]
    have : ¬ (now ≥ n.timexp_forget ∧ n.timexp_forget > 0) := by omega
    simp only [Option.map_some', if_neg this]
  · rw [forget_neighbors_slot, hi]
    have : T ≥ n.timexp_forget ∧ n.timexp_forget > 0 := by omega
    simp only [Option.map_some', if_pos this]

/-- Witness for C3: sender 5 observed at tick 0 gets the deadline 64. -/
theorem forget_neighbors_boundary_witness :
    (run_ops demo_params [TableOp.observe 0 (rx_of 5 10)]
        (setup demo_params 1 demo_data)).neighbors[0]? = some ⟨5, 5, 10, 10, 64⟩ ∧
    (∀ now, now < 64 →
      (forget_neighbors demo_params now (run_ops demo_params [TableOp.observe 0 (rx_of 5 10)]
        (setup demo_params 1 demo_data))).neighbors[0]? = some ⟨5, 5, 10, 10, 64⟩) ∧
    (forget_neighbors demo_params 64 (run_ops demo_params [TableOp.observe 0 (rx_of 5 10)]
        (setup demo_params 1 demo_data))).neighbors[0]? = some (free_slot demo_params) ∧
    (free_slot demo_params).uid = demo_params.NO_ID :=
  ⟨by decide,
    forget_neighbors_boundary demo_params
      (run_ops demo_params [TableOp.observe 0 (rx_of 5 10)] (setup demo_params 1 demo_data))
      0 ⟨5, 5, 10, 10, 64⟩ 64 (by decide) (by decide) rfl (by decide)⟩

/-- C3 as stated fails at `T = 0`: a message from sender 5 processed at tick
`2^32 - 64` gets the deadline 0, and `forget_neighbors` at tick 0 leaves the
slot occupied. -/
theorem zero_deadline_not_evicted :
    (run_ops demo_params [TableOp.observe 4294967232 (rx_of 5 10)]
        (setup demo_params 1 demo_data)).neighbors[0]? = some ⟨5, 5, 10, 10, 0⟩ ∧
    (forget_neighbors demo_params 0
      (run_ops demo_params [TableOp.observe 4294967232 (rx_of 5 10)]
        (setup demo_params 1 demo_data))).neighbors[0]? = some ⟨5, 5, 10, 10, 0⟩ := by
  decide

/-- C5: when no slot holds the incoming identifier and no slot is free,
`process_message` returns `mydata` unchanged: no slot field and not
`nr_neighbors` is modified. -/
theorem table_full_rejection (P : Params) (kilo_ticks : Nat) (m : Received_message_t)
    (s : USERDATA) (hnew : ∀ n ∈ s.neighbors, n.uid ≠ msg_id P m)
    (hfull : ∀ n ∈ s.neighbors, n.uid ≠ P.NO_ID) :
    process_message P kilo_ticks m s = s := by
  have hi := search_uid_absent (msg_id P m) s.neighbors hnew
  have hj := search_uid_absent P.NO_ID s.neighbors hfull
  unfold process_message
  simp only [hi, hj, if_true]

/-- Witness for C5: both slots taken by senders 5 and 7, a message from 9. -/
theorem table_full_rejection_witness :
    (∀ n ∈ (run_ops demo_params [TableOp.observe 0 (rx_of 5 10),
        TableOp.observe 0 (rx_of 7 80)] (setup demo_params 1 demo_data)).neighbors,
      n.uid ≠ msg_id demo_params (rx_of 9 20)) ∧
    process_message demo_params 3 (rx_of 9 20)
      (run_ops demo_params [TableOp.observe 0 (rx_of 5 10), TableOp.observe 0 (rx_of 7 80)]
        (setup demo_params 1 demo_data)) =
      run_ops demo_params [TableOp.observe 0 (rx_of 5 10), TableOp.observe 0 (rx_of 7 80)]
        (setup demo_params 1 demo_data) :=
  ⟨by decide,
    table_full_rejection demo_params 3 (rx_of 9 20)
      (run_ops demo_params [TableOp.observe 0 (rx_of 5 10), TableOp.observe 0 (rx_of 7 80)]
        (setup demo_params 1 demo_data)) (by decide) (by decide)⟩

/-- C10 (amended): `forget_neighbors` at tick `now` resets exactly the slots
with `timexp_forget != 0` and `now >= timexp_forget`, occupied or not, to
`uid = symbolic_id = NO_ID` and zero distances and deadline; every other slot
(in particular every slot with `timexp_forget == 0`) is unchanged;
`nr_neighbors` becomes `max(nr_neighbors - k, 0)` with `k` the number of slots
reset; no other field of `mydata` changes. -/
theorem forget_neighbors_effect (P : Params) (now : Nat) (s : USERDATA) :
    (forget_neighbors P now s).neighbors =
      s.neighbors.map
        (fun n => if n.timexp_forget ≠ 0 ∧ now ≥ n.timexp_forget then free_slot P else n) ∧
    ((forget_neighbors P now s).nr_neighbors : Int) =
      max ((s.nr_neighbors : Int) -
        (s.neighbors.countP
          (fun n => decide (n.timexp_forget ≠ 0 ∧ now ≥ n.timexp_forget)) : Nat)) 0 ∧
    forget_neighbors P now s =
      { s with neighbors := (forget_neighbors P now s).neighbors
               nr_neighbors := (forget_neighbors P now s).nr_neighbors } := by
  have hcond : ∀ n : Neighbor_t,
      (now ≥ n.timexp_forget ∧ n.timexp_forget > 0) ↔
        (n.timexp_forget ≠ 0 ∧ now ≥ n.timexp_forget) := by
    intro n; omega
  refine ⟨?_, ?_, rfl⟩
  · simp only [forget_neighbors, forget_loop_fst, hcond]
  · simp only [forget_neighbors, forget_loop_snd, hcond]
    omega

/-- C10 as stated fails: after a message from sender 5, a message whose
identifier equals `NO_ID` with distance 7 and a second message from sender 5 at
tick 1, slot 1 is free yet carries a deadline; `forget_neighbors` at tick 64
rewrites that free slot and lowers `nr_neighbors` from 1 to 0 although no
occupied slot has reached its deadline. -/
theorem forget_neighbors_resets_free_slot :
    (run_ops demo_params
      [TableOp.observe 0 (rx_of 5 10), TableOp.observe 0 (rx_of 65535 7),
        TableOp.observe 1 (rx_of 5 12)]
      (setup demo_params 1 demo_data)).neighbors =
      [⟨5, 5, 12, 10, 65⟩, ⟨65535, 65535, 7, 7, 64⟩] ∧
    (run_ops demo_params
      [TableOp.observe 0 (rx_of 5 10), TableOp.observe 0 (rx_of 65535 7),
        TableOp.observe 1 (rx_of 5 12)]
      (setup demo_params 1 demo_data)).nr_neighbors = 1 ∧
    (forget_neighbors demo_params 64 (run_ops demo_params
      [TableOp.observe 0 (rx_of 5 10), TableOp.observe 0 (rx_of 65535 7),
        TableOp.observe 1 (rx_of 5 12)]
      (setup demo_params 1 demo_data))).neighbors =
      [⟨5, 5, 12, 10, 65⟩, ⟨65535, 65535, 0, 0, 0⟩] ∧
    (forget_neighbors demo_params 64 (run_ops demo_params
      [TableOp.observe 0 (rx_of 5 10), TableOp.observe 0 (rx_of 65535 7),
        TableOp.observe 1 (rx_of 5 12)]
      (setup demo_params 1 demo_data))).nr_neighbors = 0 := by
  decide

/-! ## Event classification: properties -/

/-- C4: `procInputModule` sets `current_event` to `EVENT_ALL_NEIGHBORS_DISTANT`
exactly when every slot with `uid != NO_ID` has `distance >=
PARAM_DISTANCE_THRESHOLD` (which includes the table without occupied slot), and
to `EVENT_NEIGHBOR_CLOSE` exactly when some slot with `uid != NO_ID` has
`distance < PARAM_DISTANCE_THRESHOLD`; the outcome does not depend on
`nr_neighbors` nor on the previous `current_event`, and nothing but
`current_event` is modified. -/
theorem procInputModule_classifies (P : Params) (s : USERDATA) :
    ((procInputModule P s).current_event = event_t.EVENT_ALL_NEIGHBORS_DISTANT ↔
      ∀ n ∈ s.neighbors, n.uid ≠ P.NO_ID → P.PARAM_DISTANCE_THRESHOLD ≤ n.distance) ∧
    ((procInputModule P s).current_event = event_t.EVENT_NEIGHBOR_CLOSE ↔
      ∃ n ∈ s.neighbors, n.uid ≠ P.NO_ID ∧ n.distance < P.PARAM_DISTANCE_THRESHOLD) ∧
    (∀ (nr : Nat) (ev : event_t),
      (procInputModule P { s with nr_neighbors := nr, current_event := ev }).current_event =
        (procInputModule P s).current_event) ∧
    procInputModule P s = { s with current_event := (procInputModule P s).current_event } := by
  have hiff := dist_big_iff P s.neighbors
  refine ⟨?_, ?_, ?_, ?_⟩
  · unfold procInputModule
    split
    · rename_i h
      simp only [true_iff]
      exact hiff.mp h
    · rename_i h
      simp only [false_iff, reduceCtorEq]
      exact fun hall => h (hiff.mpr hall)
  · unfold procInputModule
    split
    · rename_i h
      simp only [false_iff, reduceCtorEq, not_exists, not_and, not_lt]
      intro n hn hu
      exact hiff.mp h n hn hu
    · rename_i h
      simp only [true_iff]
      by_contra hne
      apply h
      rw [hiff]
      intro n hn hu
      by_contra hlt
      exact hne ⟨n, hn, hu, by omega⟩
  · intro nr ev
    unfold procInputModule
    dsimp only
    split <;> rfl
  · unfold procInputModule
    split <;> rfl

/-! ## Frame of `process_message` -/

theorem getElem?_at_split {α : Type} (l1 : List α) (a : α) (l2 : List α) :
    (l1 ++ a :: l2)[l1.length]? = some a := by
  induction l1 with
  | nil => simp
  | cons x l ih => simpa using ih

theorem getElem?_split_ne {α : Type} (l1 : List α) (a b : α) (l2 : List α) (i : Nat)
    (h : i ≠ l1.length) : (l1 ++ b :: l2)[i]? = (l1 ++ a :: l2)[i]? := by
  rw [← set_at_split l1 a b l2, List.getElem?_set_ne (Ne.symm h)]

/-- A table splits at any index it holds. -/
theorem split_at_index {α : Type} (p : α → Prop) (l : List α) (j : Nat) (x : α)
    (h : l[j]? = some x) (hbefore : ∀ i, i < j → ∀ y, l[i]? = some y → p y) :
    ∃ l1 l2, l = l1 ++ x :: l2 ∧ l1.length = j ∧ ∀ y ∈ l1, p y := by
  induction l generalizing j with
  | nil => simp at h
  | cons a l ih =>
    cases j with
    | zero =>
      simp at h
      exact ⟨[], l, by simp [h], rfl, by simp⟩
    | succ j =>
      have h1 : l[j]? = some x := by simpa using h
      have hb : ∀ i, i < j → ∀ y, l[i]? = some y → p y := by
        intro i hi y hy
        exact hbefore (i + 1) (by omega) y (by simpa using hy)
      obtain ⟨l1, l2, hl, hlen, hp⟩ := ih j h1 hb
      refine ⟨a :: l1, l2, by simp [hl], by simp [hlen], ?_⟩
      intro y hy
      rcases List.mem_cons.mp hy with rfl | hy
      · exact hbefore 0 (by omega) y (by simp)
      · exact hp y hy

/-- Slot by slot, `process_message` either leaves a slot as it was, or rewrites
it with `store_observation`; the rewritten slot held the identifier of the
message or was free. -/
theorem process_message_slot (P : Params) (t : Nat) (m : Received_message_t)
    (s : USERDATA) (i : Nat) :
    (process_message P t m s).neighbors[i]? = s.neighbors[i]? ∨
    ∃ n, s.neighbors[i]? = some n ∧ (n.uid = msg_id P m ∨ n.uid = P.NO_ID) ∧
      (process_message P t m s).neighbors[i]? =
        some (store_observation P t (msg_id P m) (msg_distance P m) n) := by
  have key : ∀ (l1 : List Neighbor_t) (n : Neighbor_t) (l2 : List Neighbor_t),
      s.neighbors = l1 ++ n :: l2 → (n.uid = msg_id P m ∨ n.uid = P.NO_ID) →
      ∀ s1 : USERDATA, s1.neighbors =
        l1 ++ store_observation P t (msg_id P m) (msg_distance P m) n :: l2 →
      (s1.neighbors[i]? = s.neighbors[i]? ∨
        ∃ n, s.neighbors[i]? = some n ∧ (n.uid = msg_id P m ∨ n.uid = P.NO_ID) ∧
          s1.neighbors[i]? =
            some (store_observation P t (msg_id P m) (msg_distance P m) n)) := by
    intro l1 n l2 hs hn s1 hs1
    by_cases hi : i = l1.length
    · right
      refine ⟨n, ?_, hn, ?_⟩
      · rw [hs, hi]; exact getElem?_at_split l1 n l2
      · rw [hs1, hi]; exact getElem?_at_split l1 _ l2
    · left
      rw [hs, hs1]
      exact getElem?_split_ne l1 n _ l2 i hi
  rcases uid_cases (msg_id P m) s.neighbors with hnew | ⟨l1, n, l2, hs, hn, h1⟩
  · rcases uid_cases P.NO_ID s.neighbors with hfull | ⟨l1, n, l2, hs, hn, h1⟩
    · left
      rw [process_message_reject P t m s hnew hfull]
    · rw [process_message_insert P t m s l1 n l2 hs hnew h1 hn]
      exact key l1 n l2 hs (Or.inr hn) _ rfl
  · rw [process_message_update P t m s l1 n l2 hs h1 hn]
    exact key l1 n l2 hs (Or.inl hn) _ rfl

/-- Messages of other senders leave the slot of `x.uid` where it is: the slot
at index `j` still holds `x`, and no earlier slot holds that identifier. -/
theorem run_ops_keeps_slot (P : Params) (x : Neighbor_t) (j : Nat) (hx : x.uid ≠ P.NO_ID)
    (ops : List TableOp) (s : USERDATA) (hops : ∀ op ∈ ops, other_sender P x.uid op)
    (hj : s.neighbors[j]? = some x)
    (hbefore : ∀ i, i < j → ∀ y, s.neighbors[i]? = some y → y.uid ≠ x.uid) :
    (run_ops P ops s).neighbors[j]? = some x ∧
    ∀ i, i < j → ∀ y, (run_ops P ops s).neighbors[i]? = some y → y.uid ≠ x.uid := by
  induction ops generalizing s with
  | nil => exact ⟨hj, hbefore⟩
  | cons op rest ih =>
    have hrest : ∀ o ∈ rest, other_sender P x.uid o := fun o ho => hops o (by simp [ho])
    have hop : other_sender P x.uid op := hops op (by simp)
    cases op with
    | evict t => exact absurd hop (by simp [other_sender])
    | observe t m =>
      have hm : msg_id P m ≠ x.uid := hop
      have h1 : (process_message P t m s).neighbors[j]? = some x := by
        rcases process_message_slot P t m s j with h | ⟨n, hn, hu, _⟩
        · rw [h, hj]
        · rw [hj] at hn
          cases hn
          rcases hu with hu | hu
          · exact absurd hu.symm hm
          · exact absurd hu hx
      have h2 : ∀ i, i < j → ∀ y, (process_message P t m s).neighbors[i]? = some y →
          y.uid ≠ x.uid := by
        intro i hi y hy
        rcases process_message_slot P t m s i with h | ⟨n, _, _, hnew⟩
        · rw [h] at hy
          exact hbefore i hi y hy
        · rw [hnew] at hy
          cases hy
          rw [store_observation_uid]
          exact hm
      have := ih (process_message P t m s) hrest h1 h2
      simpa only [run_ops, List.foldl_cons, apply_op] using this

/-! ## Distance smoothing -/

/-- C2 (amended): in a table whose free slots carry zero distances, the first
`process_message` for an identifier not yet in the table (a free slot being
available) leaves its slot with `distance == distance_prev == d1`; after any
number of messages from other senders and no eviction, the next
`process_message` for the same identifier with `d2` leaves that slot with
`distance == d2` and with `distance_prev == d1` when `d1` is not 0, while for
`d1 == 0` it stores `d2` in both fields. -/
theorem distance_smoothing (P : Params) (t1 t2 : Nat) (m1 m2 : Received_message_t)
    (s : USERDATA) (between : List TableOp)
    (hnew : ∀ n ∈ s.neighbors, n.uid ≠ msg_id P m1)
    (hfree : ∃ n ∈ s.neighbors, n.uid = P.NO_ID)
    (hclean : ∀ n ∈ s.neighbors, n.uid = P.NO_ID → n.distance = 0 ∧ n.distance_prev = 0)
    (hsame : msg_id P m2 = msg_id P m1)
    (hbetween : ∀ op ∈ between, other_sender P (msg_id P m1) op) :
    search_uid (msg_id P m1) (process_message P t1 m1 s).neighbors =
      search_uid P.NO_ID s.neighbors ∧
    (∃ x, (process_message P t1 m1 s).neighbors[search_uid P.NO_ID s.neighbors]? = some x ∧
      x.uid = msg_id P m1 ∧ x.distance = msg_distance P m1 ∧
      x.distance_prev = msg_distance P m1) ∧
    (∃ y, (process_message P t2 m2
        (run_ops P between (process_message P t1 m1 s))).neighbors[
          search_uid P.NO_ID s.neighbors]? = some y ∧
      y.uid = msg_id P m1 ∧ y.distance = msg_distance P m2 ∧
      y.distance_prev =
        if msg_distance P m1 = 0 then msg_distance P m2 else msg_distance P m1) := by
  rcases uid_cases P.NO_ID s.neighbors with hfull | ⟨l1, n, l2, hs, hn, h1⟩
  · obtain ⟨n, hn, hu⟩ := hfree
    exact absurd hu (hfull n hn)
  have hnmem : n ∈ s.neighbors := by rw [hs]; simp
  have hid : msg_id P m1 ≠ P.NO_ID := fun h => hnew n hnmem (by rw [hn, h])
  have hl1 : ∀ y ∈ l1, y.uid ≠ msg_id P m1 := fun y hy => hnew y (by rw [hs]; simp [hy])
  obtain ⟨hd, hdp⟩ := hclean n hnmem hn
  have hj : search_uid P.NO_ID s.neighbors = l1.length := by
    rw [hs]; exact search_uid_append P.NO_ID l1 n l2 h1 hn
  obtain ⟨x, hxeq, hxu, hxd, hxp⟩ : ∃ x : Neighbor_t,
      store_observation P t1 (msg_id P m1) (msg_distance P m1) n = x ∧
      x.uid = msg_id P m1 ∧ x.distance = msg_distance P m1 ∧
      x.distance_prev = msg_distance P m1 :=
    ⟨_, rfl, store_observation_uid P t1 _ _ n, by simp [store_observation, hd, hdp],
      by simp [store_observation, hd, hdp]⟩
  have hs1 := process_message_insert P t1 m1 s l1 n l2 hs hnew h1 hn
  rw [hxeq] at hs1
  have hn1 : (process_message P t1 m1 s).neighbors = l1 ++ x :: l2 := by rw [hs1]
  rw [hj]
  refine ⟨?_, ⟨x, ?_, hxu, hxd, hxp⟩, ?_⟩
  · rw [hn1]
    exact search_uid_append (msg_id P m1) l1 x l2 hl1 hxu
  · rw [hn1]
    exact getElem?_at_split l1 x l2
  · have hslot : (process_message P t1 m1 s).neighbors[l1.length]? = some x := by
      rw [hn1]; exact getElem?_at_split l1 x l2
    have hbefore : ∀ i, i < l1.length → ∀ y,
        (process_message P t1 m1 s).neighbors[i]? = some y → y.uid ≠ x.uid := by
      intro i hi y hy
      rw [hn1, List.getElem?_append_left hi] at hy
      rw [hxu]
      exact hl1 y (List.getElem?_mem hy)
    have hops : ∀ op ∈ between, other_sender P x.uid op := by
      rw [hxu]; exact hbetween
    obtain ⟨k1, k2⟩ := run_ops_keeps_slot P x l1.length (by rw [hxu]; exact hid) between
      (process_message P t1 m1 s) hops hslot hbefore
    obtain ⟨a, b, hab, hlen, hpa⟩ :=
      split_at_index (fun y => y.uid ≠ msg_id P m2) _ l1.length x k1
        (by rw [hsame, ← hxu]; exact k2)
    have hupd := process_message_update P t2 m2
      (run_ops P between (process_message P t1 m1 s)) a x b hab hpa (by rw [hsame]; exact hxu)
    refine ⟨store_observation P t2 (msg_id P m2) (msg_distance P m2) x, ?_, ?_, ?_, ?_⟩
    · rw [hupd, ← hlen]
      exact getElem?_at_split a _ b
    · rw [store_observation_uid, hsame]
    · unfold store_observation
      dsimp only
      split <;> rfl
    · unfold store_observation
      dsimp only
      rw [hxd, hxp]
      by_cases h0 : msg_distance P m1 = 0
      · simp [h0]
      · simp [h0]

/-- Witness for C2: after `setup`, sender 5 is heard at distance 10, then
sender 7, then sender 5 again at distance 20. -/
theorem distance_smoothing_witness :
    (∃ n ∈ (setup demo_params 1 demo_data).neighbors, n.uid = demo_params.NO_ID) ∧
    (search_uid (msg_id demo_params (rx_of 5 10))
      (process_message demo_params 0 (rx_of 5 10) (setup demo_params 1 demo_data)).neighbors =
      search_uid demo_params.NO_ID (setup demo_params 1 demo_data).neighbors ∧
    (∃ x, (process_message demo_params 0 (rx_of 5 10)
        (setup demo_params 1 demo_data)).neighbors[
          search_uid demo_params.NO_ID (setup demo_params 1 demo_data).neighbors]? = some x ∧
      x.uid = msg_id demo_params (rx_of 5 10) ∧
      x.distance = msg_distance demo_params (rx_of 5 10) ∧
      x.distance_prev = msg_distance demo_params (rx_of 5 10)) ∧
    (∃ y, (process_message demo_params 3 (rx_of 5 20)
        (run_ops demo_params [TableOp.observe 1 (rx_of 7 80)]
          (process_message demo_params 0 (rx_of 5 10)
            (setup demo_params 1 demo_data)))).neighbors[
          search_uid demo_params.NO_ID (setup demo_params 1 demo_data).neighbors]? = some y ∧
      y.uid = msg_id demo_params (rx_of 5 10) ∧
      y.distance = msg_distance demo_params (rx_of 5 20) ∧
      y.distance_prev =
        if msg_distance demo_params (rx_of 5 10) = 0 then msg_distance demo_params (rx_of 5 20)
        else msg_distance demo_params (rx_of 5 10))) :=
  ⟨by decide,
    distance_smoothing demo_params 0 3 (rx_of 5 10) (rx_of 5 20)
      (setup demo_params 1 demo_data) [TableOp.observe 1 (rx_of 7 80)]
      (by decide) (by decide) (by decide) (by decide) (by decide)⟩

/-- C2 as stated fails for `d1 = 0`: sender 5 heard at distance 0 and then at
distance 7 ends with `distance_prev == 7`, not 0. -/
theorem zero_distance_not_shifted :
    (run_ops demo_params [TableOp.observe 0 (rx_of 5 0), TableOp.observe 1 (rx_of 5 7)]
      (setup demo_params 1 demo_data)).neighbors[0]? = some ⟨5, 5, 7, 7, 65⟩ := by
  decide

/-! ## Receive ring buffer: properties -/

theorem ring_index (h k N : Nat) (hh : h < N) (hk : k ≤ N) :
    (h + k) % N = if h + k < N then h + k else h + k - N := by
  split
  · rename_i hlt
    exact Nat.mod_eq_of_lt hlt
  · rw [Nat.mod_eq_sub_mod (by omega), Nat.mod_eq_of_lt (by omega)]

theorem RB_drain_of_holds (l : List Received_message_t) (s : USERDATA) (fuel : Nat)
    (h : RB_holds s l) (hfuel : l.length ≤ fuel) : RB_drain fuel s = l := by
  induction l generalizing s fuel with
  | nil =>
    obtain ⟨_, hh, ht, _⟩ := h
    have hemp : RB_empty s = true := by
      simp [RB_empty, ht, Nat.mod_eq_of_lt hh]
    cases fuel with
    | zero => rfl
    | succ f => simp [RB_drain, hemp]
  | cons a l0 ih =>
    obtain ⟨hlen, hh, ht, hk⟩ := h
    simp only [List.length_cons] at hlen ht hk hfuel
    cases fuel with
    | zero => omega
    | succ f =>
      have hne : s.RXHead ≠ s.RXTail := by
        rw [ht, ring_index _ _ _ hh (by omega)]
        split <;> omega
      have hemp : RB_empty s = false := by simp [RB_empty, hne]
      have hfront : RB_front s = a := by
        have h0 := hk 0 (by omega)
        simp only [Nat.add_zero, Nat.mod_eq_of_lt hh] at h0
        simp [RB_front, h0]
      have hpos : 0 < s.RXBuffer.length := by omega
      have hpop : RB_holds (RB_popfront s) l0 := by
        refine ⟨by simp [RB_popfront]; omega,
          by simpa [RB_popfront] using Nat.mod_lt _ hpos, ?_, ?_⟩
        · simp only [RB_popfront]
          rw [ht, Nat.mod_add_mod]
          congr 1
          omega
        · intro k hklt
          simp only [RB_popfront]
          rw [Nat.mod_add_mod, Nat.add_assoc, Nat.add_comm 1 k, hk (k + 1) (by omega)]
          simp
      simp only [RB_drain, hemp, hfront, ih (RB_popfront s) f hpop (by omega)]
      simp

theorem RB_contents_of_holds (l : List Received_message_t) (s : USERDATA)
    (h : RB_holds s l) : RB_contents s = l :=
  RB_drain_of_holds l s _ h (Nat.le_of_lt h.1)

/-- C7: calling `set_motion m` when the current motion state is already `m`
issues no command and leaves the whole state unchanged; hence `set_motion m`
twice in a row yields the same state and the same issued commands as
`set_motion m` once. -/
theorem set_motion_idempotent (P : Params) (m : motion_t) (k : Kilobot) :
    (k.mydata.current_motion_state = m → set_motion P m k = k) ∧
    set_motion P m (set_motion P m k) = set_motion P m k ∧
    (set_motion P m (set_motion P m k)).issued = (set_motion P m k).issued := by
  have h1 : ∀ k0 : Kilobot, k0.mydata.current_motion_state = m → set_motion P m k0 = k0 := by
    intro k0 h
    simp [set_motion, h]
  have h2 : (set_motion P m k).mydata.current_motion_state = m := by
    unfold set_motion
    split
    · rename_i h; exact h.symm
    · rfl
  refine ⟨h1 k, h1 _ h2, ?_⟩
  rw [h1 _ h2]

/-- Witness for C7: a stopped robot asked to stop. -/
theorem set_motion_idempotent_witness :
    set_motion demo_params motion_t.MOTION_STOP ⟨demo_data, []⟩ = ⟨demo_data, []⟩ :=
  (set_motion_idempotent demo_params motion_t.MOTION_STOP ⟨demo_data, []⟩).1 rfl

/-- C8: whatever the random source returns and whatever the prior state,
`handle_neighbor_close` ends with green and straight when `rand % 4` is 0 or 1,
red and left when it is 2, blue and right when it is 3; among the four draws
two lead to straight motion, one to left and one to right. -/
theorem handle_neighbor_close_outcome (P : Params) (rand : Nat) (k : Kilobot) :
    ((handle_neighbor_close P rand k).mydata.current_led_color,
      (handle_neighbor_close P rand k).mydata.current_motion_state) =
      (if rand % 4 = 0 ∨ rand % 4 = 1 then (color_t.COLOR_GREEN, motion_t.MOTION_STRAIGHT)
       else if rand % 4 = 2 then (color_t.COLOR_RED, motion_t.MOTION_LEFT)
       else (color_t.COLOR_BLUE, motion_t.MOTION_RIGHT)) ∧
    ((List.range 4).filter (fun v =>
      (handle_neighbor_close P v k).mydata.current_motion_state
        = motion_t.MOTION_STRAIGHT)).length = 2 ∧
    ((List.range 4).filter (fun v =>
      (handle_neighbor_close P v k).mydata.current_motion_state
        = motion_t.MOTION_LEFT)).length = 1 ∧
    ((List.range 4).filter (fun v =>
      (handle_neighbor_close P v k).mydata.current_motion_state
        = motion_t.MOTION_RIGHT)).length = 1 := by
  have hm : ∀ (m : motion_t) (k0 : Kilobot),
      (set_motion P m k0).mydata.current_motion_state = m ∧
      (set_motion P m k0).mydata.current_led_color = k0.mydata.current_led_color := by
    intro m k0
    unfold set_motion
    split
    · rename_i h; exact ⟨h.symm, rfl⟩
    · exact ⟨rfl, rfl⟩
  have key : ∀ v : Nat,
      ((handle_neighbor_close P v k).mydata.current_led_color,
        (handle_neighbor_close P v k).mydata.current_motion_state) =
      (if v % 4 = 0 ∨ v % 4 = 1 then (color_t.COLOR_GREEN, motion_t.MOTION_STRAIGHT)
       else if v % 4 = 2 then (color_t.COLOR_RED, motion_t.MOTION_LEFT)
       else (color_t.COLOR_BLUE, motion_t.MOTION_RIGHT)) := by
    intro v
    have hv : v % 4 < 4 := Nat.mod_lt _ (by decide)
    have h256 : v % 4 % 256 = v % 4 := Nat.mod_eq_of_lt (by omega)
    unfold handle_neighbor_close
    simp only [h256, set_color]
    generalize v % 4 = r at hv
    match r, hv with
    | 0, _ => simp [hm, set_led_color]
    | 1, _ => simp [hm, set_led_color]
    | 2, _ => simp [hm, set_led_color]
    | 3, _ => simp [hm, set_led_color]
  have km : ∀ v : Nat, (handle_neighbor_close P v k).mydata.current_motion_state =
      (if v % 4 = 0 ∨ v % 4 = 1 then motion_t.MOTION_STRAIGHT
       else if v % 4 = 2 then motion_t.MOTION_LEFT else motion_t.MOTION_RIGHT) := by
    intro v
    have h := congrArg Prod.snd (key v)
    simp only at h
    rw [h]
    split
    · rfl
    · split <;> rfl
  refine ⟨key rand, ?_, ?_, ?_⟩ <;>
    simp [List.range_succ, List.filter_cons, km]

/-- C9: `handle_all_neighbors_distant` ends with the white color and the
stopped motion state whatever the prior state; it takes no random value, and it
leaves the neighbor table, `nr_neighbors` and `current_event` as they were: the
resulting `mydata` is the prior one with only these two fields set. -/
theorem handle_all_neighbors_distant_outcome (P : Params) (k : Kilobot) :
    (handle_all_neighbors_distant P k).mydata.current_led_color = color_t.COLOR_WHITE ∧
    (handle_all_neighbors_distant P k).mydata.current_motion_state
      = motion_t.MOTION_STOP ∧
    (handle_all_neighbors_distant P k).mydata.neighbors = k.mydata.neighbors ∧
    (handle_all_neighbors_distant P k).mydata.nr_neighbors = k.mydata.nr_neighbors ∧
    (handle_all_neighbors_distant P k).mydata.current_event = k.mydata.current_event ∧
    (handle_all_neighbors_distant P k).mydata =
      { k.mydata with current_led_color := color_t.COLOR_WHITE
                      current_motion_state := motion_t.MOTION_STOP } := by
  unfold handle_all_neighbors_distant set_motion
  split
  · rename_i h
    have h1 : k.mydata.current_motion_state = motion_t.MOTION_STOP := h.symm
    refine ⟨rfl, h.symm, rfl, rfl, rfl, ?_⟩
    simp only [set_led_color, set_color]
    rw [← h1]
  · exact ⟨rfl, rfl, rfl, rfl, rfl, rfl⟩

/-! ## Allocation and refresh of a slot -/

theorem before_split_ne (id : Nat) (l1 : List Neighbor_t) (n : Neighbor_t)
    (l2 : List Neighbor_t) (h1 : ∀ x ∈ l1, x.uid ≠ id) :
    ∀ i, i < l1.length → ∀ y, (l1 ++ n :: l2)[i]? = some y → y.uid ≠ id := by
  intro i hi y hy
  rw [List.getElem?_append_left hi] at hy
  exact h1 y (List.getElem?_mem hy)

theorem store_observation_fields (P : Params) (t id d : Nat) (n : Neighbor_t) :
    store_observation P t id d n =
      { uid := id, symbolic_id := id, distance := d,
        distance_prev := if n.distance = 0 ∧ n.distance_prev = 0 then d else n.distance,
        timexp_forget := (t + P.FORGET_NEIGHBOR_INTERVAL) % 4294967296 } := by
  unfold store_observation
  dsimp only
  by_cases h0 : n.distance = 0
  · by_cases h1 : n.distance_prev = 0
    · simp [h0, h1]
    · have h2 : ¬ (0 = n.distance_prev) := fun h => h1 h.symm
      simp [h0, h1, h2]
  · simp [h0]

/-- C11 (amended): when no slot holds the incoming identifier and some slot is
free, `process_message` at tick `now` binds the identifier to the free slot of
lowest index `j`: that slot ends with `uid == symbolic_id == id`, `distance`
equal to the message distance and `timexp_forget == now +
FORGET_NEIGHBOR_INTERVAL` in 32-bit arithmetic; `distance_prev` is the message
distance when both distance fields of the free slot were 0 (as `setup` and
`forget_neighbors` leave them) and the old `distance` of the slot otherwise;
`nr_neighbors` is incremented by exactly 1; every other slot and every other
field of `mydata` is unchanged. -/
theorem first_fit_insertion (P : Params) (now : Nat) (m : Received_message_t)
    (s : USERDATA) (hnew : ∀ n ∈ s.neighbors, n.uid ≠ msg_id P m)
    (hfree : ∃ n ∈ s.neighbors, n.uid = P.NO_ID) :
    ∃ old, s.neighbors[search_uid P.NO_ID s.neighbors]? = some old ∧
      old.uid = P.NO_ID ∧
      (∀ i, i < search_uid P.NO_ID s.neighbors → ∀ y, s.neighbors[i]? = some y →
        y.uid ≠ P.NO_ID) ∧
      (process_message P now m s).neighbors[search_uid P.NO_ID s.neighbors]? =
        some { uid := msg_id P m, symbolic_id := msg_id P m,
               distance := msg_distance P m,
               distance_prev :=
                 if old.distance = 0 ∧ old.distance_prev = 0 then msg_distance P m
                 else old.distance,
               timexp_forget := (now + P.FORGET_NEIGHBOR_INTERVAL) % 4294967296 } ∧
      (process_message P now m s).nr_neighbors = s.nr_neighbors + 1 ∧
      (∀ i, i ≠ search_uid P.NO_ID s.neighbors →
        (process_message P now m s).neighbors[i]? = s.neighbors[i]?) ∧
      process_message P now m s =
        { s with neighbors := (process_message P now m s).neighbors
                 nr_neighbors := s.nr_neighbors + 1 } := by
  rcases uid_cases P.NO_ID s.neighbors with hfull | ⟨l1, n, l2, hs, hn, h1⟩
  · obtain ⟨n, hn, hu⟩ := hfree
    exact absurd hu (hfull n hn)
  have hj : search_uid P.NO_ID s.neighbors = l1.length := by
    rw [hs]; exact search_uid_append P.NO_ID l1 n l2 h1 hn
  have hpm := process_message_insert P now m s l1 n l2 hs hnew h1 hn
  rw [hj, hpm]
  refine ⟨n, ?_, hn, ?_, ?_, rfl, ?_, rfl⟩
  · rw [hs]; exact getElem?_at_split l1 n l2
  · rw [hs]; exact before_split_ne P.NO_ID l1 n l2 h1
  · show (l1 ++ _ :: l2)[l1.length]? = _
    rw [getElem?_at_split, store_observation_fields]
  · intro i hi
    show (l1 ++ _ :: l2)[i]? = _
    rw [hs]
    exact getElem?_split_ne l1 n _ l2 i hi

/-- Witness for C11: sender 5 heard right after `setup`. -/
theorem first_fit_insertion_witness :
    (∃ n ∈ (setup demo_params 1 demo_data).neighbors, n.uid = demo_params.NO_ID) ∧
    ∃ old, (setup demo_params 1 demo_data).neighbors[
        search_uid demo_params.NO_ID (setup demo_params 1 demo_data).neighbors]? = some old ∧
      old.uid = demo_params.NO_ID ∧
      (∀ i, i < search_uid demo_params.NO_ID (setup demo_params 1 demo_data).neighbors →
        ∀ y, (setup demo_params 1 demo_data).neighbors[i]? = some y →
        y.uid ≠ demo_params.NO_ID) ∧
      (process_message demo_params 3 (rx_of 5 10) (setup demo_params 1 demo_data)).neighbors[
        search_uid demo_params.NO_ID (setup demo_params 1 demo_data).neighbors]? =
        some { uid := msg_id demo_params (rx_of 5 10),
               symbolic_id := msg_id demo_params (rx_of 5 10),
               distance := msg_distance demo_params (rx_of 5 10),
               distance_prev :=
                 if old.distance = 0 ∧ old.distance_prev = 0 then
                   msg_distance demo_params (rx_of 5 10)
                 else old.distance,
               timexp_forget :=
                 (3 + demo_params.FORGET_NEIGHBOR_INTERVAL) % 4294967296 } ∧
      (process_message demo_params 3 (rx_of 5 10)
        (setup demo_params 1 demo_data)).nr_neighbors =
        (setup demo_params 1 demo_data).nr_neighbors + 1 ∧
      (∀ i, i ≠ search_uid demo_params.NO_ID (setup demo_params 1 demo_data).neighbors →
        (process_message demo_params 3 (rx_of 5 10)
          (setup demo_params 1 demo_data)).neighbors[i]? =
          (setup demo_params 1 demo_data).neighbors[i]?) ∧
      process_message demo_params 3 (rx_of 5 10) (setup demo_params 1 demo_data) =
        { setup demo_params 1 demo_data with
          neighbors := (process_message demo_params 3 (rx_of 5 10)
            (setup demo_params 1 demo_data)).neighbors
          nr_neighbors := (setup demo_params 1 demo_data).nr_neighbors + 1 } :=
  ⟨by decide,
    first_fit_insertion demo_params 3 (rx_of 5 10) (setup demo_params 1 demo_data)
      (by decide) (by decide)⟩

/-- C11 as stated fails on a table whose free slot carries distances: after a
message whose identifier equals `NO_ID` (65535) with distance 7, slot 0 is free
with `distance == distance_prev == 7`; the message of sender 5 with distance 9
then takes slot 0 and leaves `distance == 9` but `distance_prev == 7`. -/
theorem insertion_keeps_old_distance :
    (run_ops demo_params [TableOp.observe 0 (rx_of 65535 7)]
      (setup demo_params 1 demo_data)).neighbors =
      [⟨65535, 65535, 7, 7, 64⟩, ⟨65535, 65535, 0, 0, 0⟩] ∧
    (process_message demo_params 1 (rx_of 5 9)
      (run_ops demo_params [TableOp.observe 0 (rx_of 65535 7)]
        (setup demo_params 1 demo_data))).neighbors =
      [⟨5, 5, 9, 7, 65⟩, ⟨65535, 65535, 0, 0, 0⟩] := by
  decide

/-- C12: when some slot already holds the incoming identifier,
`process_message` at tick `now` rewrites only the lowest-index slot `j` holding
it: its `uid` stays the identifier, its `timexp_forget` becomes `now +
FORGET_NEIGHBOR_INTERVAL` (32-bit arithmetic; the plain sum when it does not
wrap), `nr_neighbors` is unchanged, the number of occupied slots (hence of free
slots) is unchanged, and every other slot and every other field of `mydata` is
unchanged. -/
theorem refresh_known_sender (P : Params) (now : Nat) (m : Received_message_t)
    (s : USERDATA) (hheld : ∃ n ∈ s.neighbors, n.uid = msg_id P m) :
    ∃ old new, s.neighbors[search_uid (msg_id P m) s.neighbors]? = some old ∧
      old.uid = msg_id P m ∧
      (∀ i, i < search_uid (msg_id P m) s.neighbors → ∀ y, s.neighbors[i]? = some y →
        y.uid ≠ msg_id P m) ∧
      (process_message P now m s).neighbors[search_uid (msg_id P m) s.neighbors]? =
        some new ∧
      new.uid = msg_id P m ∧
      new.timexp_forget = (now + P.FORGET_NEIGHBOR_INTERVAL) % 4294967296 ∧
      (now + P.FORGET_NEIGHBOR_INTERVAL < 4294967296 →
        new.timexp_forget = now + P.FORGET_NEIGHBOR_INTERVAL) ∧
      (process_message P now m s).nr_neighbors = s.nr_neighbors ∧
      occupied P (process_message P now m s).neighbors = occupied P s.neighbors ∧
      (∀ i, i ≠ search_uid (msg_id P m) s.neighbors →
        (process_message P now m s).neighbors[i]? = s.neighbors[i]?) ∧
      process_message P now m s =
        { s with neighbors := (process_message P now m s).neighbors } := by
  rcases uid_cases (msg_id P m) s.neighbors with hnone | ⟨l1, n, l2, hs, hn, h1⟩
  · obtain ⟨n, hn, hu⟩ := hheld
    exact absurd hu (hnone n hn)
  have hj : search_uid (msg_id P m) s.neighbors = l1.length := by
    rw [hs]; exact search_uid_append (msg_id P m) l1 n l2 h1 hn
  have hpm := process_message_update P now m s l1 n l2 hs h1 hn
  have hf := store_observation_fields P now (msg_id P m) (msg_distance P m) n
  rw [hj, hpm]
  refine ⟨n, store_observation P now (msg_id P m) (msg_distance P m) n, ?_, hn, ?_, ?_,
    ?_, ?_, ?_, rfl, ?_, ?_, rfl⟩
  · rw [hs]; exact getElem?_at_split l1 n l2
  · rw [hs]; exact before_split_ne (msg_id P m) l1 n l2 h1
  · exact getElem?_at_split l1 _ l2
  · rw [hf]
  · rw [hf]
  · intro hlt
    rw [hf]
    exact Nat.mod_eq_of_lt hlt
  · show occupied P (l1 ++ _ :: l2) = _
    rw [hs, occupied_split, occupied_split, store_observation_uid, hn]
  · intro i hi
    show (l1 ++ _ :: l2)[i]? = _
    rw [hs]
    exact getElem?_split_ne l1 n _ l2 i hi

/-- Witness for C12: sender 5 heard at tick 0 and again at tick 3. -/
theorem refresh_known_sender_witness :
    (process_message demo_params 3 (rx_of 5 20)
      (run_ops demo_params [TableOp.observe 0 (rx_of 5 10)]
        (setup demo_params 1 demo_data))).neighbors =
      [⟨5, 5, 20, 10, 67⟩, ⟨65535, 65535, 0, 0, 0⟩] ∧
    ∃ old new, (run_ops demo_params [TableOp.observe 0 (rx_of 5 10)]
        (setup demo_params 1 demo_data)).neighbors[
          search_uid (msg_id demo_params (rx_of 5 20))
            (run_ops demo_params [TableOp.observe 0 (rx_of 5 10)]
              (setup demo_params 1 demo_data)).neighbors]? = some old ∧
      old.uid = msg_id demo_params (rx_of 5 20) ∧
      (∀ i, i < search_uid (msg_id demo_params (rx_of 5 20))
          (run_ops demo_params [TableOp.observe 0 (rx_of 5 10)]
            (setup demo_params 1 demo_data)).neighbors →
        ∀ y, (run_ops demo_params [TableOp.observe 0 (rx_of 5 10)]
          (setup demo_params 1 demo_data)).neighbors[i]? = some y →
        y.uid ≠ msg_id demo_params (rx_of 5 20)) ∧
      (process_message demo_params 3 (rx_of 5 20)
        (run_ops demo_params [TableOp.observe 0 (rx_of 5 10)]
          (setup demo_params 1 demo_data))).neighbors[
          search_uid (msg_id demo_params (rx_of 5 20))
            (run_ops demo_params [TableOp.observe 0 (rx_of 5 10)]
              (setup demo_params 1 demo_data)).neighbors]? = some new ∧
      new.uid = msg_id demo_params (rx_of 5 20) ∧
      new.timexp_forget = (3 + demo_params.FORGET_NEIGHBOR_INTERVAL) % 4294967296 ∧
      (3 + demo_params.FORGET_NEIGHBOR_INTERVAL < 4294967296 →
        new.timexp_forget = 3 + demo_params.FORGET_NEIGHBOR_INTERVAL) ∧
      (process_message demo_params 3 (rx_of 5 20)
        (run_ops demo_params [TableOp.observe 0 (rx_of 5 10)]
          (setup demo_params 1 demo_data))).nr_neighbors =
        (run_ops demo_params [TableOp.observe 0 (rx_of 5 10)]
          (setup demo_params 1 demo_data)).nr_neighbors ∧
      occupied demo_params (process_message demo_params 3 (rx_of 5 20)
        (run_ops demo_params [TableOp.observe 0 (rx_of 5 10)]
          (setup demo_params 1 demo_data))).neighbors =
        occupied demo_params (run_ops demo_params [TableOp.observe 0 (rx_of 5 10)]
          (setup demo_params 1 demo_data)).neighbors ∧
      (∀ i, i ≠ search_uid (msg_id demo_params (rx_of 5 20))
          (run_ops demo_params [TableOp.observe 0 (rx_of 5 10)]
            (setup demo_params 1 demo_data)).neighbors →
        (process_message demo_params 3 (rx_of 5 20)
          (run_ops demo_params [TableOp.observe 0 (rx_of 5 10)]
            (setup demo_params 1 demo_data))).neighbors[i]? =
          (run_ops demo_params [TableOp.observe 0 (rx_of 5 10)]
            (setup demo_params 1 demo_data)).neighbors[i]?) ∧
      process_message demo_params 3 (rx_of 5 20)
        (run_ops demo_params [TableOp.observe 0 (rx_of 5 10)]
          (setup demo_params 1 demo_data)) =
        { run_ops demo_params [TableOp.observe 0 (rx_of 5 10)]
            (setup demo_params 1 demo_data) with
          neighbors := (process_message demo_params 3 (rx_of 5 20)
            (run_ops demo_params [TableOp.observe 0 (rx_of 5 10)]
              (setup demo_params 1 demo_data))).neighbors } :=
  ⟨by decide,
    refresh_known_sender demo_params 3 (rx_of 5 20)
      (run_ops demo_params [TableOp.observe 0 (rx_of 5 10)] (setup demo_params 1 demo_data))
      (by decide)⟩

/-! ## Motion commands -/

/-- C16: for a target `m` different from the current motion state,
`set_motion m` ends with `current_motion_state == m`, changes nothing else in
`mydata`, and issues exactly: `set_motors(0, 0)` without spin-up for
`MOTION_STOP`; `spinup_motors` followed by `set_motors(kilo_straight_left,
kilo_straight_right)` for `MOTION_STRAIGHT`; `spinup_motors` followed by
`set_motors(kilo_turn_left, 0)` for `MOTION_LEFT`; `spinup_motors` followed by
`set_motors(0, kilo_turn_right)` for `MOTION_RIGHT`. -/
theorem set_motion_commands (P : Params) (m : motion_t) (k : Kilobot)
    (h : m ≠ k.mydata.current_motion_state) :
    (set_motion P m k).mydata.current_motion_state = m ∧
    (set_motion P m k).mydata = { k.mydata with current_motion_state := m } ∧
    (set_motion P m k).issued = k.issued ++
      (match m with
       | motion_t.MOTION_STOP => [Cmd.set_motors 0 0]
       | motion_t.MOTION_STRAIGHT =>
           [Cmd.spinup_motors, Cmd.set_motors P.kilo_straight_left P.kilo_straight_right]
       | motion_t.MOTION_LEFT => [Cmd.spinup_motors, Cmd.set_motors P.kilo_turn_left 0]
       | motion_t.MOTION_RIGHT => [Cmd.spinup_motors, Cmd.set_motors 0 P.kilo_turn_right]) := by
  unfold set_motion
  rw [if_neg h]
  refine ⟨rfl, rfl, ?_⟩
  cases m <;> rfl

/-- Witness for C16: a stopped robot asked to go straight. -/
theorem set_motion_commands_witness :
    motion_t.MOTION_STRAIGHT ≠ (⟨demo_data, []⟩ : Kilobot).mydata.current_motion_state ∧
    (set_motion demo_params motion_t.MOTION_STRAIGHT ⟨demo_data, []⟩).issued =
      [Cmd.spinup_motors, Cmd.set_motors 70 70] :=
  ⟨by decide,
    (set_motion_commands demo_params motion_t.MOTION_STRAIGHT ⟨demo_data, []⟩
      (by decide)).2.2⟩

/-! ## Identifier encoding -/

theorem two_bytes_join (u : Nat) (hu : u < 65536) :
    ((u &&& 0xFF) ||| (((u >>> 8) % 256) <<< 8)) % 65536 = u := by
  have h1 : u &&& 0xFF = u % 256 := Nat.and_pow_two_sub_one_eq_mod u 8
  have h2 : u >>> 8 = u / 256 := Nat.shiftRight_eq_div_pow u 8
  have h3 : u / 256 % 256 = u / 256 := Nat.mod_eq_of_lt (by omega)
  have h4 : (u / 256) <<< 8 = 256 * (u / 256) := by
    rw [Nat.shiftLeft_eq]; omega
  have h5 : 256 * (u / 256) + u % 256 = 256 * (u / 256) ||| u % 256 :=
    Nat.mul_add_lt_is_or (i := 8) (Nat.mod_lt u (by decide)) (u / 256)
  rw [h1, h2, h3, h4, Nat.lor_comm, ← h5, Nat.div_add_mod]
  exact Nat.mod_eq_of_lt hu

/-- C15: for every 16-bit identifier `u`, `setup_message` stores the low byte
of `u` at `INDEX_MSG_OWNER_UID_LOW` and the high byte at
`INDEX_MSG_OWNER_UID_HIGH` (two distinct positions of the payload), and the
identifier `process_message` decodes from that message, `low | high << 8`, is
`u` again. -/
theorem uid_roundtrip (P : Params) (u : Nat) (s : USERDATA) (dist : distance_measurement_t)
    (hu : u < 65536)
    (hne : P.INDEX_MSG_OWNER_UID_LOW ≠ P.INDEX_MSG_OWNER_UID_HIGH)
    (hlow : P.INDEX_MSG_OWNER_UID_LOW < s.msg_tx.data.length)
    (hhigh : P.INDEX_MSG_OWNER_UID_HIGH < s.msg_tx.data.length) :
    (setup_message P u s).msg_tx.data[P.INDEX_MSG_OWNER_UID_LOW]? = some (u % 256) ∧
    (setup_message P u s).msg_tx.data[P.INDEX_MSG_OWNER_UID_HIGH]? = some (u / 256) ∧
    msg_id P { msg := (setup_message P u s).msg_tx, dist := dist } = u := by
  have h1 : u &&& 0xFF = u % 256 := Nat.and_pow_two_sub_one_eq_mod u 8
  have h2 : (u >>> 8) % 256 = u / 256 := by
    rw [Nat.shiftRight_eq_div_pow u 8]
    exact Nat.mod_eq_of_lt (by omega)
  have hlo : (setup_message P u s).msg_tx.data[P.INDEX_MSG_OWNER_UID_LOW]? =
      some (u &&& 0xFF) := by
    simp only [setup_message]
    rw [List.getElem?_set_ne (Ne.symm hne), List.getElem?_set_self hlow]
  have hhi : (setup_message P u s).msg_tx.data[P.INDEX_MSG_OWNER_UID_HIGH]? =
      some ((u >>> 8) % 256) := by
    simp only [setup_message]
    rw [List.getElem?_set_self (by simpa using hhigh)]
  refine ⟨by rw [hlo, h1], by rw [hhi, h2], ?_⟩
  unfold msg_id
  simp only [List.getD_eq_getElem?_getD, hlo, hhi, Option.getD_some]
  exact two_bytes_join u hu

/-- Witness for C15: the identifier 4660 (bytes 0x34 and 0x12). -/
theorem uid_roundtrip_witness :
    (4660 < 65536 ∧
      demo_params.INDEX_MSG_OWNER_UID_LOW ≠ demo_params.INDEX_MSG_OWNER_UID_HIGH) ∧
    (setup_message demo_params 4660 demo_data).msg_tx.data[
      demo_params.INDEX_MSG_OWNER_UID_LOW]? = some (4660 % 256) ∧
    (setup_message demo_params 4660 demo_data).msg_tx.data[
      demo_params.INDEX_MSG_OWNER_UID_HIGH]? = some (4660 / 256) ∧
    msg_id demo_params
      { msg := (setup_message demo_params 4660 demo_data).msg_tx, dist := ⟨0, 9⟩ } = 4660 :=
  ⟨by decide,
    uid_roundtrip demo_params 4660 demo_data ⟨0, 9⟩ (by decide) (by decide) (by decide)
      (by decide)⟩

/-! ## Uniqueness of identifiers and deadlines -/

theorem uids_distinct_replace (P : Params) (l1 : List Neighbor_t) (n x : Neighbor_t)
    (l2 : List Neighbor_t) (h : uids_distinct P (l1 ++ n :: l2))
    (hx : x.uid = n.uid ∨ ∀ y ∈ l1 ++ n :: l2, y.uid ≠ x.uid) :
    uids_distinct P (l1 ++ x :: l2) := by
  unfold uids_distinct at h ⊢
  rw [List.pairwise_append, List.pairwise_cons] at h ⊢
  obtain ⟨h1, ⟨hn2, h2⟩, h12⟩ := h
  refine ⟨h1, ⟨?_, h2⟩, ?_⟩
  · intro b hb hxu
    rcases hx with hx | hx
    · rw [hx] at hxu ⊢
      exact hn2 b hb hxu
    · exact (hx b (by simp [hb])).symm
  · intro a ha b hb hau
    rcases List.mem_cons.mp hb with rfl | hb
    · rcases hx with hx | hx
      · rw [hx]
        exact h12 a ha n (by simp) hau
      · exact hx a (by simp [ha])
    · exact h12 a ha b (by simp [hb]) hau

theorem process_message_distinct (P : Params) (t : Nat) (m : Received_message_t)
    (s : USERDATA) (h : uids_distinct P s.neighbors) :
    uids_distinct P (process_message P t m s).neighbors := by
  have hu := store_observation_uid P t (msg_id P m) (msg_distance P m)
  rcases uid_cases (msg_id P m) s.neighbors with hnew | ⟨l1, n, l2, hs, hn, h1⟩
  · rcases uid_cases P.NO_ID s.neighbors with hfull | ⟨l1, n, l2, hs, hn, h1⟩
    · rw [process_message_reject P t m s hnew hfull]
      exact h
    · rw [process_message_insert P t m s l1 n l2 hs hnew h1 hn]
      rw [hs] at h hnew
      refine uids_distinct_replace P l1 n _ l2 h (Or.inr ?_)
      intro y hy
      rw [hu]
      exact hnew y hy
  · rw [process_message_update P t m s l1 n l2 hs h1 hn]
    rw [hs] at h
    exact uids_distinct_replace P l1 n _ l2 h (Or.inl (by rw [hu, hn]))

theorem forget_neighbors_distinct (P : Params) (t : Nat) (s : USERDATA)
    (h : uids_distinct P s.neighbors) :
    uids_distinct P (forget_neighbors P t s).neighbors := by
  unfold uids_distinct at h ⊢
  simp only [forget_neighbors, forget_loop_fst]
  refine List.Pairwise.map _ ?_ h
  intro a b hab
  dsimp only
  split
  · intro hne
    exact absurd rfl hne
  · split
    · intro hne
      exact hne
    · exact hab

theorem run_ops_distinct (P : Params) (ops : List TableOp) (s : USERDATA)
    (h : uids_distinct P s.neighbors) : uids_distinct P (run_ops P ops s).neighbors := by
  induction ops generalizing s with
  | nil => exact h
  | cons op rest ih =>
    have step : uids_distinct P (apply_op P s op).neighbors := by
      cases op with
      | observe t m => exact process_message_distinct P t m s h
      | evict t => exact forget_neighbors_distinct P t s h
    have := ih (apply_op P s op) step
    simpa only [run_ops, List.foldl_cons] using this

theorem setup_distinct (P : Params) (kilo_uid : Nat) (s0 : USERDATA) :
    uids_distinct P (setup P kilo_uid s0).neighbors := by
  rw [(setup_table P kilo_uid s0).1]
  unfold uids_distinct
  rw [List.pairwise_replicate]
  right
  intro hne
  exact absurd rfl hne

/-- C17: in every state reached from `setup` by `process_message` and
`forget_neighbors` calls (in particular by calls whose message identifiers
differ from `NO_ID`), no two slots hold the same identifier: for slot indices
`i != j`, `uid[i] != NO_ID` implies `uid[i] != uid[j]`. -/
theorem uids_unique (P : Params) (kilo_uid : Nat) (s0 : USERDATA) (ops : List TableOp)
    (i j : Nat) (a b : Neighbor_t) (hij : i ≠ j)
    (hi : (run_ops P ops (setup P kilo_uid s0)).neighbors[i]? = some a)
    (hj : (run_ops P ops (setup P kilo_uid s0)).neighbors[j]? = some b)
    (ha : a.uid ≠ P.NO_ID) : a.uid ≠ b.uid := by
  have h := run_ops_distinct P ops (setup P kilo_uid s0) (setup_distinct P kilo_uid s0)
  unfold uids_distinct at h
  rw [List.pairwise_iff_getElem] at h
  obtain ⟨hi1, hi2⟩ := List.getElem?_eq_some.mp hi
  obtain ⟨hj1, hj2⟩ := List.getElem?_eq_some.mp hj
  rcases Nat.lt_or_gt_of_ne hij with hlt | hgt
  · have := h i j hi1 hj1 hlt
    rw [hi2, hj2] at this
    exact this ha
  · have := h j i hj1 hi1 hgt
    rw [hi2, hj2] at this
    intro heq
    exact this (by rw [← heq]; exact ha) heq.symm

/-- Witness for C17: senders 5 and 7 heard, 5 heard again, in slots 0 and 1. -/
theorem uids_unique_witness :
    (run_ops demo_params [TableOp.observe 0 (rx_of 5 10), TableOp.observe 0 (rx_of 7 80),
        TableOp.observe 1 (rx_of 5 12)] (setup demo_params 1 demo_data)).neighbors[0]? =
      some ⟨5, 5, 12, 10, 65⟩ ∧
    (⟨5, 5, 12, 10, 65⟩ : Neighbor_t).uid ≠ (⟨7, 7, 80, 80, 64⟩ : Neighbor_t).uid :=
  ⟨by decide,
    uids_unique demo_params 1 demo_data
      [TableOp.observe 0 (rx_of 5 10), TableOp.observe 0 (rx_of 7 80),
        TableOp.observe 1 (rx_of 5 12)] 0 1 ⟨5, 5, 12, 10, 65⟩ ⟨7, 7, 80, 80, 64⟩
      (by decide) (by decide) (by decide) (by decide)⟩

theorem process_message_deadlines (P : Params) (t : Nat) (m : Received_message_t)
    (s : USERDATA) (hH : 0 < P.FORGET_NEIGHBOR_INTERVAL)
    (hw : t + P.FORGET_NEIGHBOR_INTERVAL < 4294967296)
    (h : deadlines_set P s.neighbors) :
    deadlines_set P (process_message P t m s).neighbors := by
  have hf := store_observation_fields P t (msg_id P m) (msg_distance P m)
  have key : ∀ (l1 : List Neighbor_t) (n : Neighbor_t) (l2 : List Neighbor_t),
      s.neighbors = l1 ++ n :: l2 →
      deadlines_set P
        (l1 ++ store_observation P t (msg_id P m) (msg_distance P m) n :: l2) := by
    intro l1 n l2 hs y hy hu
    rw [hs] at h
    rcases List.mem_append.mp hy with hy | hy
    · exact h y (by simp [hy]) hu
    · rcases List.mem_cons.mp hy with rfl | hy
      · rw [hf, Nat.mod_eq_of_lt hw]
        dsimp only
        omega
      · exact h y (by simp [hy]) hu
  rcases uid_cases (msg_id P m) s.neighbors with hnew | ⟨l1, n, l2, hs, hn, h1⟩
  · rcases uid_cases P.NO_ID s.neighbors with hfull | ⟨l1, n, l2, hs, hn, h1⟩
    · rw [process_message_reject P t m s hnew hfull]
      exact h
    · rw [process_message_insert P t m s l1 n l2 hs hnew h1 hn]
      exact key l1 n l2 hs
  · rw [process_message_update P t m s l1 n l2 hs h1 hn]
    exact key l1 n l2 hs

theorem forget_neighbors_deadlines (P : Params) (t : Nat) (s : USERDATA)
    (h : deadlines_set P s.neighbors) :
    deadlines_set P (forget_neighbors P t s).neighbors := by
  intro y hy hu
  simp only [forget_neighbors, forget_loop_fst, List.mem_map] at hy
  obtain ⟨a, ha, rfl⟩ := hy
  split at hu
  · exact absurd rfl hu
  · rename_i hexp
    rw [if_neg hexp]
    exact h a ha hu

theorem run_ops_deadlines (P : Params) (ops : List TableOp) (s : USERDATA)
    (hH : 0 < P.FORGET_NEIGHBOR_INTERVAL) (hops : ∀ op ∈ ops, no_wrap P op)
    (h : deadlines_set P s.neighbors) :
    deadlines_set P (run_ops P ops s).neighbors := by
  induction ops generalizing s with
  | nil => exact h
  | cons op rest ih =>
    have hrest : ∀ o ∈ rest, no_wrap P o := fun o ho => hops o (by simp [ho])
    have hop : no_wrap P op := hops op (by simp)
    have step : deadlines_set P (apply_op P s op).neighbors := by
      cases op with
      | observe t m => exact process_message_deadlines P t m s hH hop h
      | evict t => exact forget_neighbors_deadlines P t s h
    have := ih (apply_op P s op) hrest step
    simpa only [run_ops, List.foldl_cons] using this

theorem setup_deadlines (P : Params) (kilo_uid : Nat) (s0 : USERDATA) :
    deadlines_set P (setup P kilo_uid s0).neighbors := by
  rw [(setup_table P kilo_uid s0).1]
  intro y hy hu
  rw [List.eq_of_mem_replicate hy] at hu
  exact absurd rfl hu

/-- C18: with `FORGET_NEIGHBOR_INTERVAL > 0`, in every state reached from
`setup` by `process_message` and `forget_neighbors` calls whose message
identifiers differ from `NO_ID` and whose deadlines `now +
FORGET_NEIGHBOR_INTERVAL` do not wrap around, every free slot has `distance ==
0`, `distance_prev == 0` and `timexp_forget == 0`, and every occupied slot has
`timexp_forget != 0`. -/
theorem slot_shape_invariant (P : Params) (kilo_uid : Nat) (s0 : USERDATA)
    (ops : List TableOp) (hH : 0 < P.FORGET_NEIGHBOR_INTERVAL)
    (hids : ∀ op ∈ ops, sender_known P op) (hwrap : ∀ op ∈ ops, no_wrap P op) :
    ∀ n ∈ (run_ops P ops (setup P kilo_uid s0)).neighbors,
      (n.uid = P.NO_ID →
        n.distance = 0 ∧ n.distance_prev = 0 ∧ n.timexp_forget = 0) ∧
      (n.uid ≠ P.NO_ID → n.timexp_forget ≠ 0) := by
  obtain ⟨_, hnr, hclean⟩ := setup_invariant P kilo_uid s0
  have h1 := (run_ops_invariant P ops (setup P kilo_uid s0) hids hnr hclean).2.2
  have h2 := run_ops_deadlines P ops (setup P kilo_uid s0) hH hwrap
    (setup_deadlines P kilo_uid s0)
  intro n hn
  exact ⟨h1 n hn, h2 n hn⟩

/-- Witness for C18: senders 5 and 7 heard at tick 0, eviction at tick 10. -/
theorem slot_shape_invariant_witness :
    (0 < demo_params.FORGET_NEIGHBOR_INTERVAL ∧
      ∀ op ∈ [TableOp.observe 0 (rx_of 5 10), TableOp.observe 0 (rx_of 7 80),
        TableOp.evict 10], no_wrap demo_params op) ∧
    ∀ n ∈ (run_ops demo_params [TableOp.observe 0 (rx_of 5 10),
        TableOp.observe 0 (rx_of 7 80), TableOp.evict 10]
        (setup demo_params 1 demo_data)).neighbors,
      (n.uid = demo_params.NO_ID →
        n.distance = 0 ∧ n.distance_prev = 0 ∧ n.timexp_forget = 0) ∧
      (n.uid ≠ demo_params.NO_ID → n.timexp_forget ≠ 0) :=
  ⟨by decide,
    slot_shape_invariant demo_params 1 demo_data
      [TableOp.observe 0 (rx_of 5 10), TableOp.observe 0 (rx_of 7 80), TableOp.evict 10]
      (by decide) (by decide) (by decide)⟩

/-! ## The control loop: properties -/

/-- `process_message` modifies nothing but the table and the counter. -/
theorem process_message_frame (P : Params) (t : Nat) (m : Received_message_t)
    (s : USERDATA) :
    process_message P t m s =
      { s with neighbors := (process_message P t m s).neighbors
               nr_neighbors := (process_message P t m s).nr_neighbors } := by
  rcases uid_cases (msg_id P m) s.neighbors with hnew | ⟨l1, n, l2, hs, hn, h1⟩
  · rcases uid_cases P.NO_ID s.neighbors with hfull | ⟨l1, n, l2, hs, hn, h1⟩
    · rw [process_message_reject P t m s hnew hfull]
    · rw [process_message_insert P t m s l1 n l2 hs hnew h1 hn]
  · rw [process_message_update P t m s l1 n l2 hs h1 hn]

/-- `process_message` does not read the head index of the receive buffer. -/
theorem process_message_set_head (P : Params) (t : Nat) (m : Received_message_t)
    (s : USERDATA) (h : Nat) :
    process_message P t m { s with RXHead := h } =
      { process_message P t m s with RXHead := h } := by
  rcases uid_cases (msg_id P m) s.neighbors with hnew | ⟨l1, n, l2, hs, hn, h1⟩
  · rcases uid_cases P.NO_ID s.neighbors with hfull | ⟨l1, n, l2, hs, hn, h1⟩
    · rw [process_message_reject P t m s hnew hfull,
        process_message_reject P t m { s with RXHead := h } hnew hfull]
    · rw [process_message_insert P t m s l1 n l2 hs hnew h1 hn,
        process_message_insert P t m { s with RXHead := h } l1 n l2 hs hnew h1 hn]
  · rw [process_message_update P t m s l1 n l2 hs h1 hn,
      process_message_update P t m { s with RXHead := h } l1 n l2 hs h1 hn]

theorem observe_all_set_head (P : Params) (t : Nat) (ms : List Received_message_t)
    (s : USERDATA) (h : Nat) :
    observe_all P t ms { s with RXHead := h } = { observe_all P t ms s with RXHead := h } := by
  induction ms generalizing s with
  | nil => rfl
  | cons m rest ih =>
    simp only [observe_all, List.foldl_cons] at ih ⊢
    rw [process_message_set_head, ih]

theorem observe_all_rx (P : Params) (t : Nat) (ms : List Received_message_t)
    (s : USERDATA) :
    (observe_all P t ms s).RXBuffer = s.RXBuffer ∧
    (observe_all P t ms s).RXHead = s.RXHead ∧
    (observe_all P t ms s).RXTail = s.RXTail := by
  induction ms generalizing s with
  | nil => exact ⟨rfl, rfl, rfl⟩
  | cons m rest ih =>
    have h := ih (process_message P t m s)
    simp only [observe_all, List.foldl_cons] at h ⊢
    rw [h.1, h.2.1, h.2.2, process_message_frame]
    exact ⟨rfl, rfl, rfl⟩

theorem RB_holds_nil (s : USERDATA) (h : RB_holds s []) : s.RXHead = s.RXTail := by
  obtain ⟨_, hh, ht, _⟩ := h
  rw [ht]
  simp [Nat.mod_eq_of_lt hh]

theorem RB_holds_cons (s : USERDATA) (a : Received_message_t)
    (l0 : List Received_message_t) (h : RB_holds s (a :: l0)) :
    RB_empty s = false ∧ RB_front s = a ∧ RB_holds (RB_popfront s) l0 := by
  obtain ⟨hlen, hh, ht, hk⟩ := h
  simp only [List.length_cons] at hlen ht hk
  have hpos : 0 < s.RXBuffer.length := by omega
  have hne : s.RXHead ≠ s.RXTail := by
    rw [ht, ring_index _ _ _ hh (by omega)]
    split <;> omega
  refine ⟨by simp [RB_empty, hne], ?_, ?_⟩
  · have h0 := hk 0 (by omega)
    simp only [Nat.add_zero, Nat.mod_eq_of_lt hh] at h0
    simp [RB_front, h0]
  · refine ⟨by simp [RB_popfront]; omega,
      by simpa [RB_popfront] using Nat.mod_lt _ hpos, ?_, ?_⟩
    · simp only [RB_popfront]
      rw [ht, Nat.mod_add_mod]
      congr 1
      omega
    · intro k hklt
      simp only [RB_popfront]
      rw [Nat.mod_add_mod, Nat.add_assoc, Nat.add_comm 1 k, hk (k + 1) (by omega)]
      simp

theorem RB_holds_of_rx_eq (s s1 : USERDATA) (l : List Received_message_t)
    (hb : s1.RXBuffer = s.RXBuffer) (hh : s1.RXHead = s.RXHead)
    (ht : s1.RXTail = s.RXTail) (h : RB_holds s l) : RB_holds s1 l := by
  unfold RB_holds at h ⊢
  rw [hb, hh, ht]
  exact h

/-- On a buffer holding `ms`, the drain loop of `loop` ends within
`ms.length + 1` tests; it has applied `process_message` to the entries of `ms`
in order and left the head index on the tail index. -/
theorem drain_loop_of_holds (P : Params) (t : Nat) (ms : List Received_message_t)
    (s : USERDATA) (fuel : Nat) (h : RB_holds s ms) (hfuel : ms.length < fuel) :
    drain_loop P t fuel s = some { observe_all P t ms s with RXHead := s.RXTail } := by
  induction ms generalizing s fuel with
  | nil =>
    have heq := RB_holds_nil s h
    cases fuel with
    | zero => simp at hfuel
    | succ f =>
      have hemp : RB_empty s = true := by simp [RB_empty, heq]
      simp only [drain_loop, hemp, if_true, observe_all, List.foldl_nil]
      cases s
      dsimp only at heq
      subst heq
      rfl
  | cons a l0 ih =>
    obtain ⟨hemp, hfront, hpop⟩ := RB_holds_cons s a l0 h
    simp only [List.length_cons] at hfuel
    cases fuel with
    | zero => omega
    | succ f =>
      have hframe := process_message_frame P t a s
      have hpop1 : RB_holds (RB_popfront (process_message P t a s)) l0 := by
        refine RB_holds_of_rx_eq (RB_popfront s) _ l0 ?_ ?_ ?_ hpop
        · rw [hframe]; rfl
        · rw [hframe]; rfl
        · rw [hframe]; rfl
      have hrec := ih (RB_popfront (process_message P t a s)) f hpop1 (by omega)
      have hhead : RB_popfront (process_message P t a s) =
          { process_message P t a s with
            RXHead := ((process_message P t a s).RXHead + 1) %
              (process_message P t a s).RXBuffer.length } := rfl
      have htail : (RB_popfront (process_message P t a s)).RXTail = s.RXTail := by
        rw [hframe]; rfl
      simp only [drain_loop, hemp, hfront, hrec, htail]
      rw [hhead, observe_all_set_head]
      simp [observe_all]

/-- The handlers touch only the color and the motion state of `mydata`. -/
theorem handlers_mydata (P : Params) (rand : Nat) (ev : event_t) (k : Kilobot) :
    (handlers P rand ev k).mydata =
      { k.mydata with
        current_led_color := (handlers P rand ev k).mydata.current_led_color
        current_motion_state := (handlers P rand ev k).mydata.current_motion_state } := by
  have hm : ∀ (m : motion_t) (k0 : Kilobot), (set_motion P m k0).mydata =
      { k0.mydata with
        current_motion_state := (set_motion P m k0).mydata.current_motion_state } := by
    intro m k0
    unfold set_motion
    split <;> rfl
  cases ev with
  | EVENT_ALL_NEIGHBORS_DISTANT =>
    simp only [handlers, handle_all_neighbors_distant]
    rw [hm]
    rfl
  | EVENT_NEIGHBOR_CLOSE =>
    simp only [handlers, handle_neighbor_close, set_color]
    split
    · rw [hm]; rfl
    · rw [hm]; rfl
    · rw [hm]; rfl
    · rw [hm]; rfl
    · rfl

theorem procInputModule_event (P : Params) (s s1 : USERDATA)
    (h : s1.neighbors = s.neighbors) :
    (procInputModule P s1).current_event = (procInputModule P s).current_event := by
  unfold procInputModule
  rw [h]
  split <;> rfl

/-- One call of `loop` on a buffer holding `ms`, with enough fuel for the
drain: the result, in closed form. -/
theorem loop_of_holds (P : Params) (now rand fuel : Nat) (k : Kilobot)
    (ms : List Received_message_t) (hbuf : RB_holds k.mydata ms)
    (hfuel : ms.length < fuel) :
    loop P now rand fuel k =
      some (handlers P rand
        (procInputModule P
          (observe_all P now ms (forget_neighbors P now k.mydata))).current_event
        { k with mydata := procInputModule P (after_drain P now ms k.mydata) }) := by
  have hb : RB_holds (forget_neighbors P now k.mydata) ms :=
    RB_holds_of_rx_eq k.mydata _ ms rfl rfl rfl hbuf
  have hd := drain_loop_of_holds P now ms (forget_neighbors P now k.mydata) fuel hb hfuel
  have hev := procInputModule_event P
    (observe_all P now ms (forget_neighbors P now k.mydata))
    (after_drain P now ms k.mydata) rfl
  unfold loop
  simp only [hd]
  rw [← hev]
  rfl

theorem procInputModule_frame (P : Params) (s : USERDATA) :
    procInputModule P s = { s with current_event := (procInputModule P s).current_event } := by
  unfold procInputModule
  split <;> rfl

theorem observe_all_append (P : Params) (t : Nat) (l1 l2 : List Received_message_t)
    (s : USERDATA) :
    observe_all P t (l1 ++ l2) s = observe_all P t l2 (observe_all P t l1 s) := by
  simp [observe_all]

/-- C13: on a receive buffer holding `m1, ..., mk` (oldest first), one call of
`loop` at tick `now` returns (the drain needs `k + 1` tests of its condition);
it leaves the neighbor table and `nr_neighbors` equal to the result of
`forget_neighbors` at `now` followed by `process_message` for `m1, ..., mk` in
that order, leaves the receive buffer empty, sets `current_event` to the
classification of that table and then runs the handler of that event; a
message rejected for lack of a free slot changes nothing and the messages
after it are still processed. -/
theorem loop_refines (P : Params) (now rand fuel : Nat) (k : Kilobot)
    (ms : List Received_message_t) (hbuf : RB_holds k.mydata ms)
    (hfuel : ms.length < fuel) :
    ∃ k1, loop P now rand fuel k = some k1 ∧
      k1.mydata.neighbors =
        (observe_all P now ms (forget_neighbors P now k.mydata)).neighbors ∧
      k1.mydata.nr_neighbors =
        (observe_all P now ms (forget_neighbors P now k.mydata)).nr_neighbors ∧
      RB_empty k1.mydata = true ∧
      RB_contents k1.mydata = [] ∧
      k1.mydata.current_event =
        (procInputModule P
          (observe_all P now ms (forget_neighbors P now k.mydata))).current_event ∧
      k1 = handlers P rand k1.mydata.current_event
        { k with mydata := procInputModule P (after_drain P now ms k.mydata) } ∧
      (∀ pre m post, ms = pre ++ m :: post →
        (∀ n ∈ (observe_all P now pre (forget_neighbors P now k.mydata)).neighbors,
          n.uid ≠ msg_id P m ∧ n.uid ≠ P.NO_ID) →
        observe_all P now ms (forget_neighbors P now k.mydata) =
          observe_all P now (pre ++ post) (forget_neighbors P now k.mydata)) := by
  have hloop := loop_of_holds P now rand fuel k ms hbuf hfuel
  have hmy := handlers_mydata P rand
    (procInputModule P
      (observe_all P now ms (forget_neighbors P now k.mydata))).current_event
    { k with mydata := procInputModule P (after_drain P now ms k.mydata) }
  have hfr := procInputModule_frame P (after_drain P now ms k.mydata)
  have hev := procInputModule_event P
    (observe_all P now ms (forget_neighbors P now k.mydata))
    (after_drain P now ms k.mydata) rfl
  have hempty : RB_holds (handlers P rand
      (procInputModule P
        (observe_all P now ms (forget_neighbors P now k.mydata))).current_event
      { k with mydata := procInputModule P (after_drain P now ms k.mydata) }).mydata [] := by
    obtain ⟨hlen, _, ht, _⟩ := hbuf
    have hpos : 0 < k.mydata.RXBuffer.length := by omega
    have hrx := observe_all_rx P now ms (forget_neighbors P now k.mydata)
    rw [hmy, hfr]
    refine ⟨?_, ?_, ?_, ?_⟩
    · show 0 < (after_drain P now ms k.mydata).RXBuffer.length
      simp only [after_drain, hrx.1]
      exact hpos
    · show k.mydata.RXTail < (after_drain P now ms k.mydata).RXBuffer.length
      simp only [after_drain, hrx.1]
      rw [ht]
      exact Nat.mod_lt _ hpos
    · show (after_drain P now ms k.mydata).RXTail =
        (k.mydata.RXTail + 0) % (after_drain P now ms k.mydata).RXBuffer.length
      simp only [after_drain, hrx.1, hrx.2.2, Nat.add_zero]
      show k.mydata.RXTail = k.mydata.RXTail % k.mydata.RXBuffer.length
      rw [ht, Nat.mod_mod]
    · intro i hi
      simp at hi
  refine ⟨_, hloop, ?_, ?_, ?_, RB_contents_of_holds [] _ hempty, ?_, ?_, ?_⟩
  · rw [hmy, hfr]; rfl
  · rw [hmy, hfr]; rfl
  · have := RB_holds_nil _ hempty
    simp [RB_empty, this]
  · rw [hmy, hfr]
    exact hev
  · rw [hmy, hfr]
    show _ = handlers P rand (procInputModule P (after_drain P now ms k.mydata)).current_event _
    rw [hev]
  · intro pre m post hms hrej
    have hr := process_message_reject P now m
      (observe_all P now pre (forget_neighbors P now k.mydata))
      (fun n hn => (hrej n hn).1) (fun n hn => (hrej n hn).2)
    rw [hms, observe_all_append, observe_all_append]
    show observe_all P now post (process_message P now m _) = _
    rw [hr]

/-- Witness for C13: the messages of senders 5 and 7 are waiting in the
buffer when `loop` runs at tick 0. -/
theorem loop_refines_witness :
    RB_holds demo_waiting [rx_of 5 10, rx_of 7 80] ∧
    ∃ k1, loop demo_params 0 2 3 ⟨demo_waiting, []⟩ = some k1 ∧
      k1.mydata.neighbors =
        (observe_all demo_params 0 [rx_of 5 10, rx_of 7 80]
          (forget_neighbors demo_params 0 demo_waiting)).neighbors ∧
      RB_contents k1.mydata = [] := by
  refine ⟨by decide, ?_⟩
  obtain ⟨k1, h1, h2, _, _, h5, _⟩ := loop_refines demo_params 0 2 3
    ⟨demo_waiting, []⟩ [rx_of 5 10, rx_of 7 80] (by decide) (by decide)
  exact ⟨k1, h1, h2, h5⟩

/-! ## End-to-end scenario -/

theorem procInputModule_close_iff (P : Params) (s : USERDATA) :
    (procInputModule P s).current_event = event_t.EVENT_NEIGHBOR_CLOSE ↔
      ∃ n ∈ s.neighbors, n.uid ≠ P.NO_ID ∧ n.distance < P.PARAM_DISTANCE_THRESHOLD := by
  have hiff := dist_big_iff P s.neighbors
  unfold procInputModule
  split
  · rename_i h
    simp only [false_iff, reduceCtorEq, not_exists, not_and, not_lt]
    intro n hn hu
    exact hiff.mp h n hn hu
  · rename_i h
    simp only [true_iff]
    by_contra hne
    apply h
    rw [hiff]
    intro n hn hu
    by_contra hlt
    exact hne ⟨n, hn, hu, by omega⟩

theorem procInputModule_distant_of_free (P : Params) (s : USERDATA)
    (h : ∀ n ∈ s.neighbors, n.uid = P.NO_ID) :
    (procInputModule P s).current_event = event_t.EVENT_ALL_NEIGHBORS_DISTANT := by
  have hbig : dist_big P s.neighbors = true := by
    rw [dist_big_iff]
    intro n hn hu
    exact absurd (h n hn) hu
  unfold procInputModule
  rw [if_pos hbig]

theorem observe_all_eq_run_ops (P : Params) (t : Nat) (ms : List Received_message_t)
    (s : USERDATA) :
    observe_all P t ms s = run_ops P (ms.map (TableOp.observe t)) s := by
  simp only [observe_all, run_ops, List.foldl_map]
  rfl

/-- A message from a new sender, heard while the table is a block of occupied
slots followed by free slots as `setup` wrote them, takes the first of these
free slots. -/
theorem insert_fresh (P : Params) (t : Nat) (m : Received_message_t) (s : USERDATA)
    (occ : List Neighbor_t) (r : Nat)
    (hs : s.neighbors = occ ++ List.replicate (r + 1) (free_slot P))
    (hocc : ∀ x ∈ occ, x.uid ≠ P.NO_ID) (hnew : ∀ x ∈ occ, x.uid ≠ msg_id P m)
    (hid : msg_id P m ≠ P.NO_ID) :
    process_message P t m s =
      { s with
        nr_neighbors := s.nr_neighbors + 1
        neighbors := (occ ++ [fresh_entry P t m]) ++ List.replicate r (free_slot P) } := by
  have hs1 : s.neighbors = occ ++ free_slot P :: List.replicate r (free_slot P) := by
    rw [hs, List.replicate_succ]
  have hall : ∀ x ∈ s.neighbors, x.uid ≠ msg_id P m := by
    intro x hx
    rw [hs1] at hx
    rcases List.mem_append.mp hx with hx | hx
    · exact hnew x hx
    · have hfree : x = free_slot P := by
        rcases List.mem_cons.mp hx with rfl | hx
        · rfl
        · exact List.eq_of_mem_replicate hx
      rw [hfree]
      exact fun h => hid h.symm
  rw [process_message_insert P t m s occ (free_slot P) _ hs1 hall hocc rfl,
    store_observation_fields]
  simp [fresh_entry, free_slot]

theorem observe_all_fresh (P : Params) (t : Nat) (ms : List Received_message_t)
    (s : USERDATA) (occ : List Neighbor_t) (r : Nat)
    (hs : s.neighbors = occ ++ List.replicate r (free_slot P))
    (hocc : ∀ x ∈ occ, x.uid ≠ P.NO_ID)
    (hdist : (ms.map (msg_id P)).Nodup)
    (hids : ∀ m ∈ ms, msg_id P m ≠ P.NO_ID)
    (hnew : ∀ m ∈ ms, ∀ x ∈ occ, x.uid ≠ msg_id P m)
    (hlen : ms.length ≤ r) :
    (observe_all P t ms s).neighbors =
      occ ++ ms.map (fresh_entry P t) ++ List.replicate (r - ms.length) (free_slot P) ∧
    (observe_all P t ms s).nr_neighbors = s.nr_neighbors + ms.length := by
  induction ms generalizing s occ r with
  | nil => simp [observe_all, hs]
  | cons m rest ih =>
    simp only [List.length_cons] at hlen
    obtain ⟨r1, rfl⟩ : ∃ r1, r = r1 + 1 := ⟨r - 1, by omega⟩
    simp only [List.map_cons, List.nodup_cons] at hdist
    have hid : msg_id P m ≠ P.NO_ID := hids m (by simp)
    have hstep := insert_fresh P t m s occ r1 hs hocc (hnew m (by simp)) hid
    have hocc1 : ∀ x ∈ occ ++ [fresh_entry P t m], x.uid ≠ P.NO_ID := by
      intro x hx
      rcases List.mem_append.mp hx with hx | hx
      · exact hocc x hx
      · rw [List.mem_singleton.mp hx]
        exact hid
    have hnew1 : ∀ m1 ∈ rest, ∀ x ∈ occ ++ [fresh_entry P t m], x.uid ≠ msg_id P m1 := by
      intro m1 hm1 x hx
      rcases List.mem_append.mp hx with hx | hx
      · exact hnew m1 (by simp [hm1]) x hx
      · rw [List.mem_singleton.mp hx]
        intro heq
        exact hdist.1 (List.mem_map.mpr ⟨m1, hm1, heq.symm⟩)
    have hrec := ih (process_message P t m s) (occ ++ [fresh_entry P t m]) r1
      (by rw [hstep]) hocc1 hdist.2 (fun m1 hm1 => hids m1 (by simp [hm1])) hnew1
      (by omega)
    simp only [observe_all, List.foldl_cons] at hrec ⊢
    rw [hrec.1, hrec.2, hstep]
    constructor
    · simp
    · simp only [List.length_cons]
      omega

/-- C14 (amended): for every tick `t`, horizon `FORGET_NEIGHBOR_INTERVAL > 0`
with `t + FORGET_NEIGHBOR_INTERVAL < 2^32` and every threshold: after `setup`,
the messages of at most `MAX_NEIGHBORS` distinct senders other than `NO_ID`,
heard at tick `t`, are inserted each in its own slot, in order; classification
then yields `EVENT_NEIGHBOR_CLOSE` exactly when one of the heard distances is
below the threshold; `forget_neighbors` at tick `t +
FORGET_NEIGHBOR_INTERVAL` frees every one of those slots, and classification of
the resulting table yields `EVENT_ALL_NEIGHBORS_DISTANT`. -/
theorem observe_then_forget (P : Params) (kilo_uid : Nat) (s0 : USERDATA) (t : Nat)
    (ms : List Received_message_t)
    (hH : 0 < P.FORGET_NEIGHBOR_INTERVAL)
    (hwrap : t + P.FORGET_NEIGHBOR_INTERVAL < 4294967296)
    (hids : ∀ m ∈ ms, msg_id P m ≠ P.NO_ID)
    (hdist : (ms.map (msg_id P)).Nodup)
    (hlen : ms.length ≤ P.MAX_NEIGHBORS) :
    (observe_all P t ms (setup P kilo_uid s0)).neighbors =
      ms.map (fresh_entry P t) ++
        List.replicate (P.MAX_NEIGHBORS - ms.length) (free_slot P) ∧
    (observe_all P t ms (setup P kilo_uid s0)).nr_neighbors = ms.length ∧
    ((procInputModule P (observe_all P t ms (setup P kilo_uid s0))).current_event =
        event_t.EVENT_NEIGHBOR_CLOSE ↔
      ∃ m ∈ ms, msg_distance P m < P.PARAM_DISTANCE_THRESHOLD) ∧
    (forget_neighbors P (t + P.FORGET_NEIGHBOR_INTERVAL)
      (observe_all P t ms (setup P kilo_uid s0))).neighbors =
      List.replicate P.MAX_NEIGHBORS (free_slot P) ∧
    (forget_neighbors P (t + P.FORGET_NEIGHBOR_INTERVAL)
      (observe_all P t ms (setup P kilo_uid s0))).nr_neighbors = 0 ∧
    (procInputModule P (forget_neighbors P (t + P.FORGET_NEIGHBOR_INTERVAL)
      (observe_all P t ms (setup P kilo_uid s0)))).current_event =
      event_t.EVENT_ALL_NEIGHBORS_DISTANT := by
  obtain ⟨htab, hnr0⟩ := setup_table P kilo_uid s0
  obtain ⟨h1, h2⟩ := observe_all_fresh P t ms (setup P kilo_uid s0) [] P.MAX_NEIGHBORS
    (by rw [htab]; rfl) (by simp) hdist hids (by simp) hlen
  simp only [List.nil_append] at h1
  rw [hnr0, Nat.zero_add] at h2
  have hforget : (forget_neighbors P (t + P.FORGET_NEIGHBOR_INTERVAL)
      (observe_all P t ms (setup P kilo_uid s0))).neighbors =
      List.replicate P.MAX_NEIGHBORS (free_slot P) := by
    simp only [forget_neighbors, forget_loop_fst, h1]
    rw [List.eq_replicate_iff]
    constructor
    · simp; omega
    · intro b hb
      simp only [List.mem_map, List.mem_append] at hb
      obtain ⟨a, ha, rfl⟩ := hb
      rcases ha with ha | ha
      · obtain ⟨m, _, rfl⟩ := ha
        have : t + P.FORGET_NEIGHBOR_INTERVAL ≥ (fresh_entry P t m).timexp_forget ∧
            (fresh_entry P t m).timexp_forget > 0 := by
          simp only [fresh_entry, Nat.mod_eq_of_lt hwrap]
          omega
        rw [if_pos this]
      · rw [List.eq_of_mem_replicate ha]
        simp [free_slot]
  have hinv : (observe_all P t ms (setup P kilo_uid s0)).nr_neighbors =
        occupied P (observe_all P t ms (setup P kilo_uid s0)).neighbors ∧
      free_slots_clean P (observe_all P t ms (setup P kilo_uid s0)).neighbors := by
    obtain ⟨_, hnr, hclean⟩ := setup_invariant P kilo_uid s0
    rw [observe_all_eq_run_ops]
    refine (run_ops_invariant P _ (setup P kilo_uid s0) ?_ hnr hclean).2
    intro op hop
    obtain ⟨m, hm, rfl⟩ := List.mem_map.mp hop
    exact hids m hm
  refine ⟨h1, h2, ?_, hforget, ?_, ?_⟩
  · rw [procInputModule_close_iff, h1]
    constructor
    · rintro ⟨n, hn, hu, hd⟩
      rcases List.mem_append.mp hn with hn | hn
      · obtain ⟨m, hm, rfl⟩ := List.mem_map.mp hn
        exact ⟨m, hm, hd⟩
      · rw [List.eq_of_mem_replicate hn] at hu
        exact absurd rfl hu
    · rintro ⟨m, hm, hd⟩
      exact ⟨fresh_entry P t m, by simp; exact Or.inl ⟨m, hm, rfl⟩, hids m hm, hd⟩
  · have h := (forget_neighbors_invariant P (t + P.FORGET_NEIGHBOR_INTERVAL)
      (observe_all P t ms (setup P kilo_uid s0)) hinv.1 hinv.2).2.1
    rw [h, hforget]
    simp [occupied, List.countP_replicate, free_slot]
  · apply procInputModule_distant_of_free
    rw [hforget]
    intro n hn
    rw [List.eq_of_mem_replicate hn]
    rfl

/-- Witness for C14: two slots, horizon 100, threshold 50; senders 5 (distance
10) and 7 (distance 80) heard at tick 0 give `EVENT_NEIGHBOR_CLOSE` at tick 0
and `EVENT_ALL_NEIGHBORS_DISTANT` after the eviction at tick 100. -/
theorem observe_then_forget_witness :
    (0 < scenario_params.FORGET_NEIGHBOR_INTERVAL ∧
      ((0 : Nat) + scenario_params.FORGET_NEIGHBOR_INTERVAL = 100) ∧
      ([rx_of 5 10, rx_of 7 80].map (msg_id scenario_params)).Nodup) ∧
    (observe_all scenario_params 0 [rx_of 5 10, rx_of 7 80]
      (setup scenario_params 1 demo_data)).neighbors =
      [⟨5, 5, 10, 10, 100⟩, ⟨7, 7, 80, 80, 100⟩] ∧
    (procInputModule scenario_params (observe_all scenario_params 0
      [rx_of 5 10, rx_of 7 80] (setup scenario_params 1 demo_data))).current_event =
      event_t.EVENT_NEIGHBOR_CLOSE ∧
    (forget_neighbors scenario_params 100 (observe_all scenario_params 0
      [rx_of 5 10, rx_of 7 80] (setup scenario_params 1 demo_data))).neighbors =
      List.replicate 2 (free_slot scenario_params) ∧
    (procInputModule scenario_params (forget_neighbors scenario_params 100
      (observe_all scenario_params 0 [rx_of 5 10, rx_of 7 80]
        (setup scenario_params 1 demo_data)))).current_event =
      event_t.EVENT_ALL_NEIGHBORS_DISTANT := by
  have h := observe_then_forget scenario_params 1 demo_data 0 [rx_of 5 10, rx_of 7 80]
    (by decide) (by decide) (by decide) (by decide) (by decide)
  exact ⟨by decide, h.1, h.2.2.1.mpr ⟨rx_of 5 10, by decide, by decide⟩, h.2.2.2.1,
    h.2.2.2.2.2⟩

/-- C14 as stated fails in two ways. At tick `2^32 - 64` with horizon 64 the
deadline of sender 5 wraps to 0: `forget_neighbors` at tick `t + 64`, taken as
`2^32` or as the wrapped tick 0, frees nothing and the classification stays
`EVENT_NEIGHBOR_CLOSE`. And a message whose identifier equals `NO_ID`, heard at
distance 10 below the threshold 50, occupies no slot and gives
`EVENT_ALL_NEIGHBORS_DISTANT`. -/
theorem scenario_fails_on_wrap_and_sentinel :
    (observe_all demo_params 4294967232 [rx_of 5 10]
      (setup demo_params 1 demo_data)).neighbors =
      [⟨5, 5, 10, 10, 0⟩, ⟨65535, 65535, 0, 0, 0⟩] ∧
    (forget_neighbors demo_params (4294967232 + 64)
      (observe_all demo_params 4294967232 [rx_of 5 10]
        (setup demo_params 1 demo_data))).neighbors =
      [⟨5, 5, 10, 10, 0⟩, ⟨65535, 65535, 0, 0, 0⟩] ∧
    (procInputModule demo_params (forget_neighbors demo_params (4294967232 + 64)
      (observe_all demo_params 4294967232 [rx_of 5 10]
        (setup demo_params 1 demo_data)))).current_event =
      event_t.EVENT_NEIGHBOR_CLOSE ∧
    (procInputModule demo_params (forget_neighbors demo_params 0
      (observe_all demo_params 4294967232 [rx_of 5 10]
        (setup demo_params 1 demo_data)))).current_event =
      event_t.EVENT_NEIGHBOR_CLOSE ∧
    occupied demo_params (observe_all demo_params 0 [rx_of 65535 10]
      (setup demo_params 1 demo_data)).neighbors = 0 ∧
    (procInputModule demo_params (observe_all demo_params 0 [rx_of 65535 10]
      (setup demo_params 1 demo_data))).current_event =
      event_t.EVENT_ALL_NEIGHBORS_DISTANT := by
  decide

/-! ## Runs of the control loop -/

theorem after_drain_holds (P : Params) (now : Nat) (ms : List Received_message_t)
    (s : USERDATA) (h : RB_holds s ms) : RB_holds (after_drain P now ms s) [] := by
  obtain ⟨hlen, _, ht, _⟩ := h
  have hpos : 0 < s.RXBuffer.length := by omega
  have hrx := observe_all_rx P now ms (forget_neighbors P now s)
  have hb : (after_drain P now ms s).RXBuffer = s.RXBuffer := hrx.1
  have hh : (after_drain P now ms s).RXHead = s.RXTail := rfl
  have htl : (after_drain P now ms s).RXTail = s.RXTail := hrx.2.2
  have hlt : s.RXTail < s.RXBuffer.length := by
    rw [ht]; exact Nat.mod_lt _ hpos
  unfold RB_holds
  rw [hb, hh, htl]
  refine ⟨hpos, hlt, ?_, ?_⟩
  · simp [Nat.mod_eq_of_lt hlt]
  · intro i hi
    simp at hi

/-- The `mydata` a call of `loop` returns, field by field. -/
theorem loop_mydata (P : Params) (now rand fuel : Nat) (k : Kilobot)
    (ms : List Received_message_t) (hbuf : RB_holds k.mydata ms)
    (hfuel : ms.length < fuel) :
    ∃ k1 col mo, loop P now rand fuel k = some k1 ∧
      k1.mydata =
        { after_drain P now ms k.mydata with
          current_event := (procInputModule P (after_drain P now ms k.mydata)).current_event
          current_led_color := col
          current_motion_state := mo } := by
  have hloop := loop_of_holds P now rand fuel k ms hbuf hfuel
  have hmy := handlers_mydata P rand
    (procInputModule P
      (observe_all P now ms (forget_neighbors P now k.mydata))).current_event
    { k with mydata := procInputModule P (after_drain P now ms k.mydata) }
  have hfr := procInputModule_frame P (after_drain P now ms k.mydata)
  refine ⟨_,
    (handlers P rand
      (procInputModule P
        (observe_all P now ms (forget_neighbors P now k.mydata))).current_event
      ⟨procInputModule P (after_drain P now ms k.mydata),
        k.issued⟩).mydata.current_led_color,
    (handlers P rand
      (procInputModule P
        (observe_all P now ms (forget_neighbors P now k.mydata))).current_event
      ⟨procInputModule P (after_drain P now ms k.mydata),
        k.issued⟩).mydata.current_motion_state,
    hloop, ?_⟩
  have e : ∀ (x y : USERDATA) (ev : event_t) (col : color_t) (mo : motion_t),
      x = { y with current_event := ev } →
      ({ x with current_led_color := col, current_motion_state := mo } : USERDATA) =
        { y with current_event := ev, current_led_color := col,
                 current_motion_state := mo } := by
    intro x y ev col mo h
    subst h
    rfl
  exact hmy.trans (e _ _ _ _ _ hfr)

theorem forget_neighbors_after (P : Params) (now : Nat) (s : USERDATA)
    (h : deadlines_set P s.neighbors) :
    deadlines_after P now (forget_neighbors P now s).neighbors := by
  intro y hy hu
  simp only [forget_neighbors, forget_loop_fst, List.mem_map] at hy
  obtain ⟨a, ha, rfl⟩ := hy
  split at hu
  · exact absurd rfl hu
  · rename_i hexp
    rw [if_neg hexp]
    have := h a ha hu
    omega

theorem process_message_after (P : Params) (now : Nat) (m : Received_message_t)
    (s : USERDATA) (hH : 0 < P.FORGET_NEIGHBOR_INTERVAL)
    (hw : now + P.FORGET_NEIGHBOR_INTERVAL < 4294967296)
    (h : deadlines_after P now s.neighbors) :
    deadlines_after P now (process_message P now m s).neighbors := by
  have hf := store_observation_fields P now (msg_id P m) (msg_distance P m)
  have key : ∀ (l1 : List Neighbor_t) (n : Neighbor_t) (l2 : List Neighbor_t),
      s.neighbors = l1 ++ n :: l2 →
      deadlines_after P now
        (l1 ++ store_observation P now (msg_id P m) (msg_distance P m) n :: l2) := by
    intro l1 n l2 hs y hy hu
    rw [hs] at h
    rcases List.mem_append.mp hy with hy | hy
    · exact h y (by simp [hy]) hu
    · rcases List.mem_cons.mp hy with rfl | hy
      · rw [hf, Nat.mod_eq_of_lt hw]
        dsimp only
        omega
      · exact h y (by simp [hy]) hu
  rcases uid_cases (msg_id P m) s.neighbors with hnew | ⟨l1, n, l2, hs, hn, h1⟩
  · rcases uid_cases P.NO_ID s.neighbors with hfull | ⟨l1, n, l2, hs, hn, h1⟩
    · rw [process_message_reject P now m s hnew hfull]
      exact h
    · rw [process_message_insert P now m s l1 n l2 hs hnew h1 hn]
      exact key l1 n l2 hs
  · rw [process_message_update P now m s l1 n l2 hs h1 hn]
    exact key l1 n l2 hs

theorem observe_all_after (P : Params) (now : Nat) (ms : List Received_message_t)
    (s : USERDATA) (hH : 0 < P.FORGET_NEIGHBOR_INTERVAL)
    (hw : now + P.FORGET_NEIGHBOR_INTERVAL < 4294967296)
    (h : deadlines_after P now s.neighbors) :
    deadlines_after P now (observe_all P now ms s).neighbors := by
  induction ms generalizing s with
  | nil => exact h
  | cons m rest ih =>
    have := ih (process_message P now m s) (process_message_after P now m s hH hw h)
    simpa only [observe_all, List.foldl_cons] using this

theorem observe_all_table_ok (P : Params) (now : Nat) (ms : List Received_message_t)
    (s : USERDATA) (hH : 0 < P.FORGET_NEIGHBOR_INTERVAL)
    (hw : now + P.FORGET_NEIGHBOR_INTERVAL < 4294967296)
    (hids : ∀ m ∈ ms, msg_id P m ≠ P.NO_ID) (h : table_ok P s) :
    table_ok P (observe_all P now ms s) := by
  obtain ⟨hnr, hclean, hdl⟩ := h
  rw [observe_all_eq_run_ops]
  have h1 := run_ops_invariant P (ms.map (TableOp.observe now)) s
    (by
      intro op hop
      obtain ⟨m, hm, rfl⟩ := List.mem_map.mp hop
      exact hids m hm) hnr hclean
  have h2 := run_ops_deadlines P (ms.map (TableOp.observe now)) s hH
    (by
      intro op hop
      obtain ⟨m, _, rfl⟩ := List.mem_map.mp hop
      exact hw) hdl
  exact ⟨h1.2.1, h1.2.2, h2⟩

/-- One scheduling step returns, keeps the table facts, and leaves every
occupied slot with a deadline after the tick of the step; a close-neighbor
event comes from an occupied slot below the threshold. -/
theorem loop_step (P : Params) (fuel : Nat) (c : LoopCall) (k : Kilobot)
    (hH : 0 < P.FORGET_NEIGHBOR_INTERVAL) (hc : call_ok P c)
    (hfuel : c.pending.length < fuel) (htab : table_ok P k.mydata) :
    ∃ k1, loop P c.kilo_ticks c.rand fuel { k with mydata := with_buffer c k.mydata } =
        some k1 ∧
      table_ok P k1.mydata ∧
      deadlines_after P c.kilo_ticks k1.mydata.neighbors ∧
      (k1.mydata.current_event = event_t.EVENT_NEIGHBOR_CLOSE →
        ∃ n ∈ k1.mydata.neighbors,
          n.uid ≠ P.NO_ID ∧ n.distance < P.PARAM_DISTANCE_THRESHOLD) := by
  obtain ⟨hids, hw, hring⟩ := hc
  have hl : RB_holds (with_buffer c k.mydata) c.pending := hring
  obtain ⟨k1, col, mo, hloop, hmy⟩ := loop_mydata P c.kilo_ticks c.rand fuel
    { k with mydata := with_buffer c k.mydata } c.pending hl hfuel
  have htab1 : table_ok P (with_buffer c k.mydata) := htab
  have hforget : table_ok P (forget_neighbors P c.kilo_ticks (with_buffer c k.mydata)) := by
    obtain ⟨hnr, hclean, hdl⟩ := htab1
    have h1 := forget_neighbors_invariant P c.kilo_ticks _ hnr hclean
    exact ⟨h1.2.1, h1.2.2, forget_neighbors_deadlines P c.kilo_ticks _ hdl⟩
  have hobs := observe_all_table_ok P c.kilo_ticks c.pending _ hH hw hids hforget
  have hafter := observe_all_after P c.kilo_ticks c.pending _ hH hw
    (forget_neighbors_after P c.kilo_ticks _ htab1.2.2)
  have hnb : k1.mydata.neighbors = (observe_all P c.kilo_ticks c.pending
      (forget_neighbors P c.kilo_ticks (with_buffer c k.mydata))).neighbors := by
    rw [hmy]; rfl
  have hnrr : k1.mydata.nr_neighbors = (observe_all P c.kilo_ticks c.pending
      (forget_neighbors P c.kilo_ticks (with_buffer c k.mydata))).nr_neighbors := by
    rw [hmy]; rfl
  refine ⟨k1, hloop, ?_, ?_, ?_⟩
  · unfold table_ok
    rw [hnb, hnrr]
    exact hobs
  · rw [hnb]
    exact hafter
  · intro hev
    rw [hnb]
    have hev1 : (procInputModule P
        (after_drain P c.kilo_ticks c.pending (with_buffer c k.mydata))).current_event =
        event_t.EVENT_NEIGHBOR_CLOSE := by
      rw [hmy] at hev
      exact hev
    exact (procInputModule_close_iff P
      (after_drain P c.kilo_ticks c.pending (with_buffer c k.mydata))).mp hev1

theorem run_loops_ok (P : Params) (fuel : Nat) (calls : List LoopCall) (k : Kilobot)
    (hH : 0 < P.FORGET_NEIGHBOR_INTERVAL) (hcalls : ∀ c ∈ calls, call_ok P c)
    (hfuel : ∀ c ∈ calls, c.pending.length < fuel) (htab : table_ok P k.mydata) :
    ∃ k1, run_loops P fuel calls k = some k1 ∧ table_ok P k1.mydata := by
  induction calls generalizing k with
  | nil => exact ⟨k, rfl, htab⟩
  | cons c rest ih =>
    obtain ⟨k1, hloop, ht1, _, _⟩ :=
      loop_step P fuel c k hH (hcalls c (by simp)) (hfuel c (by simp)) htab
    obtain ⟨k2, hrun, ht2⟩ := ih k1 (fun c1 hc1 => hcalls c1 (by simp [hc1]))
      (fun c1 hc1 => hfuel c1 (by simp [hc1])) ht1
    refine ⟨k2, ?_, ht2⟩
    simp only [run_loops, hloop]
    exact hrun

theorem run_loops_append (P : Params) (fuel : Nat) (a b : List LoopCall) (k k1 : Kilobot)
    (h : run_loops P fuel a k = some k1) :
    run_loops P fuel (a ++ b) k = run_loops P fuel b k1 := by
  induction a generalizing k with
  | nil =>
    simp only [run_loops, Option.some.injEq] at h
    subst h
    rfl
  | cons c rest ih =>
    simp only [List.cons_append, run_loops] at h ⊢
    cases hl : loop P c.kilo_ticks c.rand fuel
        { k with mydata := with_buffer c k.mydata } with
    | none =>
      rw [hl] at h
      exact absurd h (by simp)
    | some k2 =>
      rw [hl] at h
      exact ih k2 h

theorem setup_table_ok (P : Params) (kilo_uid : Nat) (s0 : USERDATA) :
    table_ok P (setup P kilo_uid s0) := by
  obtain ⟨_, hnr, hclean⟩ := setup_invariant P kilo_uid s0
  exact ⟨hnr, hclean, setup_deadlines P kilo_uid s0⟩

/-- C19 (amended): with `FORGET_NEIGHBOR_INTERVAL > 0`, in every run that
starts with `setup` and consists of calls of `loop`, each finding in the
receive buffer messages from senders other than `NO_ID` and each at a tick
whose deadline does not wrap around (the ticks may come in any order, in
particular non-decreasing), every call of `loop` returns, and whenever a call
at tick `now` ends with `current_event == EVENT_NEIGHBOR_CLOSE` there is a slot
with `uid != NO_ID`, `distance < PARAM_DISTANCE_THRESHOLD` and `timexp_forget >
now`. -/
theorem close_event_is_live (P : Params) (kilo_uid : Nat) (s0 : USERDATA)
    (issued0 : List Cmd) (fuel : Nat) (calls : List LoopCall) (c : LoopCall)
    (hH : 0 < P.FORGET_NEIGHBOR_INTERVAL)
    (hcalls : ∀ c1 ∈ calls ++ [c], call_ok P c1)
    (hfuel : ∀ c1 ∈ calls ++ [c], c1.pending.length < fuel) :
    ∃ k1, run_loops P fuel (calls ++ [c]) ⟨setup P kilo_uid s0, issued0⟩ = some k1 ∧
      (k1.mydata.current_event = event_t.EVENT_NEIGHBOR_CLOSE →
        ∃ n ∈ k1.mydata.neighbors, n.uid ≠ P.NO_ID ∧
          n.distance < P.PARAM_DISTANCE_THRESHOLD ∧ c.kilo_ticks < n.timexp_forget) := by
  obtain ⟨kp, hrun, htab⟩ := run_loops_ok P fuel calls
    ⟨setup P kilo_uid s0, issued0⟩ hH (fun c1 hc1 => hcalls c1 (by simp [hc1]))
    (fun c1 hc1 => hfuel c1 (by simp [hc1])) (setup_table_ok P kilo_uid s0)
  obtain ⟨k1, hloop, _, hafter, hclose⟩ := loop_step P fuel c kp hH
    (hcalls c (by simp)) (hfuel c (by simp)) htab
  refine ⟨k1, ?_, ?_⟩
  · rw [run_loops_append P fuel calls [c] _ kp hrun]
    simp only [run_loops, hloop]
  · intro hev
    obtain ⟨n, hn, hu, hd⟩ := hclose hev
    exact ⟨n, hn, hu, hd, hafter n hn hu⟩

/-- Witness for C19: `loop` at tick 3 finds the message of sender 7 (distance
80), `loop` at tick 70 finds the message of sender 5 (distance 10); the second
call evicts sender 7, ends with `EVENT_NEIGHBOR_CLOSE`, and the slot of sender
5 has its deadline after tick 70. -/
theorem close_event_is_live_witness :
    (0 < demo_params.FORGET_NEIGHBOR_INTERVAL ∧
      ∀ c1 ∈ [far_call] ++ [close_call], call_ok demo_params c1) ∧
    ∃ k1, run_loops demo_params 3 ([far_call] ++ [close_call])
        ⟨setup demo_params 1 demo_data, []⟩ = some k1 ∧
      k1.mydata.current_event = event_t.EVENT_NEIGHBOR_CLOSE ∧
      ∃ n ∈ k1.mydata.neighbors, n.uid ≠ demo_params.NO_ID ∧
        n.distance < demo_params.PARAM_DISTANCE_THRESHOLD ∧
        close_call.kilo_ticks < n.timexp_forget := by
  refine ⟨by decide, ?_⟩
  obtain ⟨k1, hrun, himp⟩ := close_event_is_live demo_params 1 demo_data [] 3
    [far_call] close_call (by decide) (by decide) (by decide)
  have hev : (run_loops demo_params 3 ([far_call] ++ [close_call])
      ⟨setup demo_params 1 demo_data, []⟩).map (fun k => k.mydata.current_event) =
      some event_t.EVENT_NEIGHBOR_CLOSE := by decide
  rw [hrun] at hev
  have hev1 : k1.mydata.current_event = event_t.EVENT_NEIGHBOR_CLOSE := by
    simpa using hev
  exact ⟨k1, hrun, hev1, himp hev1⟩

/-- C19 as stated fails when `FORGET_NEIGHBOR_INTERVAL` is 0: the run made of
one call of `loop` at tick 5 that finds the message of sender 5 (distance 10,
below the threshold 50) meets every condition of the claim and ends with
`EVENT_NEIGHBOR_CLOSE`, yet the only occupied slot has the deadline 5, which is
not after tick 5. -/
theorem zero_interval_close_event :
    call_ok zero_interval_params early_call ∧
    (run_loops zero_interval_params 3 ([] ++ [early_call])
      ⟨setup zero_interval_params 1 demo_data, []⟩).map
        (fun k => (k.mydata.current_event, k.mydata.neighbors)) =
      some (event_t.EVENT_NEIGHBOR_CLOSE,
        [⟨5, 5, 10, 10, 5⟩, ⟨65535, 65535, 0, 0, 0⟩]) ∧
    ¬ ∃ n ∈ [(⟨5, 5, 10, 10, 5⟩ : Neighbor_t), ⟨65535, 65535, 0, 0, 0⟩],
      n.uid ≠ zero_interval_params.NO_ID ∧
      n.distance < zero_interval_params.PARAM_DISTANCE_THRESHOLD ∧
      early_call.kilo_ticks < n.timexp_forget := by
  decide

end LuluKilobot
